import Mathlib

/-!
# HIR dump (`gcc/rust/hir/rust-hir-dump.cc`)

A shallow embedding of the HIR pretty-printer `Rust::HIR::Dump`: the line
emitter `put`, the bracket framer `begin` / `end`, the root rule `go` and the
per-kind `visit` rules, followed by theorems about them.

Conventions of the embedding:

* `std::string` is `List Char`; the output stream is the list of characters
  written so far, and `stream << x` appends to it.
* a rule that can abort (`gcc_unreachable ()`, a failed `rust_assert`) returns
  `Except Abort Dump`; the `Abort` records which failure it was and the dump
  state at the moment of the abort.
-/

namespace Rust.HIR

/-- The C++ `std::string`. -/
abbrev Str := List Char

/-- What `stream << std::endl` writes. -/
def endl : Str := ['\n']

/-- Modelled from the spec: the class `Indent` (declared in `rust-ast-dump.h`) is
not among the sources.  "IndentationTracker -- holds current nesting depth;
renders a whitespace prefix for that depth." -/
structure Indent where
  tabs : Nat
deriving DecidableEq, Repr

/-- Modelled from the spec: the constructor of `Indent`; a fresh tracker is at depth zero. -/
def Indent.new : Indent := ⟨0⟩

/-- Modelled from the spec: `stream << indentation`, the whitespace prefix of the
current depth (one tab per level). -/
def Indent.str (i : Indent) : Str := List.replicate i.tabs '\t'

/-- Modelled from the spec: `Indent::increment`, one level deeper. -/
def Indent.increment (i : Indent) : Indent := ⟨i.tabs + 1⟩

/-- Modelled from the spec: `Indent::decrement`.  "Indentation depth is never negative";
"implementations should assert depth consistency": decrementing depth zero is
an assertion failure (`none`), otherwise the depth goes down by one. -/
def Indent.decrement (i : Indent) : Option Indent :=
  if i.tabs = 0 then none else some ⟨i.tabs - 1⟩

/-- The members of `class Dump`: the output written so far, the indentation
tracker and the "at line start" flag. -/
structure Dump where
  stream : Str
  indentation : Indent
  beg_of_line : Bool
deriving DecidableEq, Repr

/-- The constructor `Dump::Dump (std::ostream &stream)`.  It binds the sink and
default-constructs `indentation`; the initial value of `beg_of_line` comes from
the class declaration, which is not among the sources, so it is a parameter. -/
def Dump.new (stream : Str) (beg_of_line : Bool) : Dump :=
  { stream := stream, indentation := Indent.new, beg_of_line := beg_of_line }

/-- The statement `stream << x`. -/
def Dump.write (self : Dump) (x : Str) : Dump :=
  { self with stream := self.stream ++ x }

/-- Scan for `c`, the head of the list being at index `i`. -/
def find_from (c : Char) : Str → Nat → Option Nat
  | [], _ => none
  | x :: xs, i => if x = c then some i else find_from c xs (i + 1)

/-- The call `text.find (c, pos)`: the first index `≥ pos` holding `c`, or
`npos` (`none`). -/
def find (text : Str) (c : Char) (pos : Nat) : Option Nat :=
  find_from c (text.drop pos) pos

/-- The call `text.substr (pos, n)` (for `pos ≤ text.size ()`). -/
def substr (text : Str) (pos n : Nat) : Str :=
  (text.drop pos).take n

/-- The `while` loop of `Dump::put` ("keep multiline string indented"), entered
with the loop variables `prev` and `first`; it returns the state and the value
of `first` at loop exit. -/
def Dump.put_loop (text : Str) (self : Dump) (prev : Nat) (first : Bool) : Dump × Bool :=
  match h : find text '\n' prev with
  | none => (self, first)
  | some pos =>
    let self1 := if !first then (self.write endl).write self.indentation.str else self
    let self2 := self1.write (substr text prev (pos - prev))
    Dump.put_loop text self2 (pos + 1) false
termination_by text.length - prev
decreasing_by
  have key : ∀ (l : Str) (i p : Nat), find_from '\n' l i = some p → i ≤ p ∧ p < i + l.length := by
    intro l
    induction l with
    | nil => intro i p hp; simp [find_from] at hp
    | cons x xs ih =>
      intro i p hp
      simp only [find_from] at hp
      split at hp
      · simp only [Option.some.injEq] at hp
        simp only [List.length_cons]
        omega
      · have := ih (i + 1) p hp
        simp only [List.length_cons]
        omega
  have hb := key (text.drop prev) prev pos h
  simp only [List.length_drop] at hb
  omega

/-- Modelled from the spec: the default argument of `put`'s `endline` parameter is given in
`rust-hir-dump.h`, which is not among the sources.  `begin` calls `put ("")`
to "emit a blank separating line", so a `put` without the argument
terminates its line. -/
def put_endline_default : Bool := true

/-- The method `Dump::put (std::string text, bool endline)`. -/
def Dump.put (self : Dump) (text : Str) (endline : Bool) : Dump :=
  let self1 :=
    if self.beg_of_line then
      { (self.write self.indentation.str) with beg_of_line := false }
    else self
  let (self2, first) := Dump.put_loop text self1 0 true
  let self3 := if first then self2.write text else self2
  if endline then
    { (self3.write endl) with beg_of_line := endline }
  else self3

/-- The `enum delim` of the class declaration. -/
inductive delim where
  | CURLY
  | SQUARE
deriving DecidableEq, Repr

/-- Modelled from the spec: the enumerators' values index `delims`; the declaration of
`enum delim` is not among the sources.  "Delimiter pair: one of {curly,
square}", curly first. -/
def delim.index : delim → Fin 2
  | .CURLY => 0
  | .SQUARE => 1

/-- Modelled from the spec: the default argument of the `delim` parameter of `begin` and
`end`, from the missing class declaration.  "Default delimiter is curly". -/
def delim_default : delim := delim.CURLY

/-- The table `static std::string delims[2][2]`. -/
def delims : Fin 2 → Fin 2 → Str :=
  ![![['{'], ['}']],
    ![['['], [']']]]

/-- The two ways a dump aborts: `gcc_unreachable ()` and a failed `rust_assert`. -/
inductive Failure where
  | gcc_unreachable
  | rust_assert
deriving DecidableEq, Repr

/-- An aborted dump: the failure and the state in which it happened. -/
structure Abort where
  failure : Failure
  state : Dump
deriving DecidableEq, Repr

/-- The method `Dump::begin (std::string name, enum delim d)`. -/
def Dump.begin (self : Dump) (name : Str) (d : delim) : Dump :=
  let self1 := self.put [] put_endline_default
  let self2 := self1.put (name ++ " ".toList ++ delims d.index 0) true
  { self2 with indentation := self2.indentation.increment }

/-- The method `Dump::end (std::string name, enum delim d)`. -/
def Dump.end_ (self : Dump) (name : Str) (d : delim) : Except Abort Dump :=
  match self.indentation.decrement with
  | none => .error ⟨.rust_assert, self⟩
  | some ind =>
    let self1 := { self with indentation := ind }
    let self2 := self1.write endl
    .ok (self2.put (delims d.index 1 ++ " // ".toList ++ name) put_endline_default)

/-- The `enum class ArithmeticOrLogicalOperator` read through `get_expr_type ()`:
its ten enumerators, and `out_of_domain` for any other value the field can
hold. -/
inductive ArithmeticOrLogicalOperator where
  | ADD
  | SUBTRACT
  | MULTIPLY
  | DIVIDE
  | MODULUS
  | BITWISE_AND
  | BITWISE_OR
  | BITWISE_XOR
  | LEFT_SHIFT
  | RIGHT_SHIFT
  | out_of_domain (raw : Nat)
deriving DecidableEq, Repr

/-- The `enum AST::Lifetime::LifetimeType` read through `get_lifetime_type ()`:
the three enumerators the dump names, and `out_of_domain` for any other value. -/
inductive LifetimeType where
  | NAMED
  | STATIC
  | WILDCARD
  | out_of_domain (raw : Nat)
deriving DecidableEq, Repr

/-- What the dump reads of an `AST::Attribute`: `get_path ().as_string ()`,
`get_attr_input ().as_string ()` when `has_attr_input ()`, and `as_string ()`. -/
structure Attribute where
  path : Str
  attr_input : Option Str
  as_string : Str
deriving DecidableEq, Repr

/-- What the dump reads of a `FunctionParam`: `as_string ()`,
`param_name->as_string ()` and `get_mappings ().as_string ()`. -/
structure FunctionParam where
  as_string : Str
  param_name : Str
  mappings : Str
deriving DecidableEq, Repr

/-- The node kinds whose `visit` rule is a placeholder: one constructor per
`Dump::visit (K &)` whose body is `begin ("K (INCOMPLETE ...)"); end ("K");`,
in the order of the source. -/
inductive StubKind where
  | LifetimeParam
  | PathInExpression
  | TypePathSegment
  | TypePathSegmentGeneric
  | TypePathSegmentFunction
  | TypePath
  | QualifiedPathInExpression
  | QualifiedPathInType
  | BorrowExpr
  | DereferenceExpr
  | ErrorPropagationExpr
  | NegationExpr
  | ComparisonExpr
  | LazyBooleanExpr
  | TypeCastExpr
  | AssignmentExpr
  | CompoundAssignmentExpr
  | GroupedExpr
  | ArrayElemsValues
  | ArrayElemsCopied
  | ArrayIndexExpr
  | TupleExpr
  | TupleIndexExpr
  | StructExprStruct
  | StructExprFieldIdentifier
  | StructExprFieldIdentifierValue
  | StructExprFieldIndexValue
  | StructExprStructFields
  | StructExprStructBase
  | CallExpr
  | MethodCallExpr
  | FieldAccessExpr
  | ClosureExpr
  | ContinueExpr
  | BreakExpr
  | RangeFromToExpr
  | RangeFromExpr
  | RangeToExpr
  | RangeFullExpr
  | RangeFromToInclExpr
  | RangeToInclExpr
  | ReturnExpr
  | UnsafeBlockExpr
  | LoopExpr
  | WhileLoopExpr
  | WhileLetLoopExpr
  | ForLoopExpr
  | IfExprConseqElse
  | IfLetExpr
  | IfLetExprConseqElse
  | MatchExpr
  | AwaitExpr
  | AsyncBlockExpr
  | TypeParam
  | ConstGenericParam
  | LifetimeWhereClauseItem
  | TypeBoundWhereClauseItem
  | Module
  | ExternCrate
  | UseTreeGlob
  | UseTreeList
  | UseTreeRebind
  | UseDeclaration
  | TypeAlias
  | StructStruct
  | TupleStruct
  | EnumItem
  | EnumItemTuple
  | EnumItemStruct
  | EnumItemDiscriminant
  | Enum
  | Union
  | ConstantItem
  | StaticItem
  | TraitItemFunc
  | TraitItemConst
  | TraitItemType
  | Trait
  | ImplBlock
  | ExternalStaticItem
  | ExternalFunctionItem
  | ExternBlock
  | LiteralPattern
  | WildcardPattern
  | RangePatternBoundLiteral
  | RangePatternBoundPath
  | RangePatternBoundQualPath
  | RangePattern
  | ReferencePattern
  | StructPatternFieldTuplePat
  | StructPatternFieldIdentPat
  | StructPatternFieldIdent
  | StructPattern
  | TupleStructItemsNoRange
  | TupleStructItemsRange
  | TupleStructPattern
  | TuplePatternItemsMultiple
  | TuplePatternItemsRanged
  | TuplePattern
  | SlicePattern
  | AltPattern
  | EmptyStmt
  | TraitBound
  | ImplTraitType
  | TraitObjectType
  | ParenthesisedType
  | ImplTraitTypeOneBound
  | TupleType
  | NeverType
  | RawPointerType
  | ReferenceType
  | InferredType
  | BareFunctionType
deriving DecidableEq, Repr, Fintype

/-- The C++ class name of a placeholder kind (the parameter type of its `visit`). -/
def StubKind.name : StubKind → Str
  | .LifetimeParam => "LifetimeParam".toList
  | .PathInExpression => "PathInExpression".toList
  | .TypePathSegment => "TypePathSegment".toList
  | .TypePathSegmentGeneric => "TypePathSegmentGeneric".toList
  | .TypePathSegmentFunction => "TypePathSegmentFunction".toList
  | .TypePath => "TypePath".toList
  | .QualifiedPathInExpression => "QualifiedPathInExpression".toList
  | .QualifiedPathInType => "QualifiedPathInType".toList
  | .BorrowExpr => "BorrowExpr".toList
  | .DereferenceExpr => "DereferenceExpr".toList
  | .ErrorPropagationExpr => "ErrorPropagationExpr".toList
  | .NegationExpr => "NegationExpr".toList
  | .ComparisonExpr => "ComparisonExpr".toList
  | .LazyBooleanExpr => "LazyBooleanExpr".toList
  | .TypeCastExpr => "TypeCastExpr".toList
  | .AssignmentExpr => "AssignmentExpr".toList
  | .CompoundAssignmentExpr => "CompoundAssignmentExpr".toList
  | .GroupedExpr => "GroupedExpr".toList
  | .ArrayElemsValues => "ArrayElemsValues".toList
  | .ArrayElemsCopied => "ArrayElemsCopied".toList
  | .ArrayIndexExpr => "ArrayIndexExpr".toList
  | .TupleExpr => "TupleExpr".toList
  | .TupleIndexExpr => "TupleIndexExpr".toList
  | .StructExprStruct => "StructExprStruct".toList
  | .StructExprFieldIdentifier => "StructExprFieldIdentifier".toList
  | .StructExprFieldIdentifierValue => "StructExprFieldIdentifierValue".toList
  | .StructExprFieldIndexValue => "StructExprFieldIndexValue".toList
  | .StructExprStructFields => "StructExprStructFields".toList
  | .StructExprStructBase => "StructExprStructBase".toList
  | .CallExpr => "CallExpr".toList
  | .MethodCallExpr => "MethodCallExpr".toList
  | .FieldAccessExpr => "FieldAccessExpr".toList
  | .ClosureExpr => "ClosureExpr".toList
  | .ContinueExpr => "ContinueExpr".toList
  | .BreakExpr => "BreakExpr".toList
  | .RangeFromToExpr => "RangeFromToExpr".toList
  | .RangeFromExpr => "RangeFromExpr".toList
  | .RangeToExpr => "RangeToExpr".toList
  | .RangeFullExpr => "RangeFullExpr".toList
  | .RangeFromToInclExpr => "RangeFromToInclExpr".toList
  | .RangeToInclExpr => "RangeToInclExpr".toList
  | .ReturnExpr => "ReturnExpr".toList
  | .UnsafeBlockExpr => "UnsafeBlockExpr".toList
  | .LoopExpr => "LoopExpr".toList
  | .WhileLoopExpr => "WhileLoopExpr".toList
  | .WhileLetLoopExpr => "WhileLetLoopExpr".toList
  | .ForLoopExpr => "ForLoopExpr".toList
  | .IfExprConseqElse => "IfExprConseqElse".toList
  | .IfLetExpr => "IfLetExpr".toList
  | .IfLetExprConseqElse => "IfLetExprConseqElse".toList
  | .MatchExpr => "MatchExpr".toList
  | .AwaitExpr => "AwaitExpr".toList
  | .AsyncBlockExpr => "AsyncBlockExpr".toList
  | .TypeParam => "TypeParam".toList
  | .ConstGenericParam => "ConstGenericParam".toList
  | .LifetimeWhereClauseItem => "LifetimeWhereClauseItem".toList
  | .TypeBoundWhereClauseItem => "TypeBoundWhereClauseItem".toList
  | .Module => "Module".toList
  | .ExternCrate => "ExternCrate".toList
  | .UseTreeGlob => "UseTreeGlob".toList
  | .UseTreeList => "UseTreeList".toList
  | .UseTreeRebind => "UseTreeRebind".toList
  | .UseDeclaration => "UseDeclaration".toList
  | .TypeAlias => "TypeAlias".toList
  | .StructStruct => "StructStruct".toList
  | .TupleStruct => "TupleStruct".toList
  | .EnumItem => "EnumItem".toList
  | .EnumItemTuple => "EnumItemTuple".toList
  | .EnumItemStruct => "EnumItemStruct".toList
  | .EnumItemDiscriminant => "EnumItemDiscriminant".toList
  | .Enum => "Enum".toList
  | .Union => "Union".toList
  | .ConstantItem => "ConstantItem".toList
  | .StaticItem => "StaticItem".toList
  | .TraitItemFunc => "TraitItemFunc".toList
  | .TraitItemConst => "TraitItemConst".toList
  | .TraitItemType => "TraitItemType".toList
  | .Trait => "Trait".toList
  | .ImplBlock => "ImplBlock".toList
  | .ExternalStaticItem => "ExternalStaticItem".toList
  | .ExternalFunctionItem => "ExternalFunctionItem".toList
  | .ExternBlock => "ExternBlock".toList
  | .LiteralPattern => "LiteralPattern".toList
  | .WildcardPattern => "WildcardPattern".toList
  | .RangePatternBoundLiteral => "RangePatternBoundLiteral".toList
  | .RangePatternBoundPath => "RangePatternBoundPath".toList
  | .RangePatternBoundQualPath => "RangePatternBoundQualPath".toList
  | .RangePattern => "RangePattern".toList
  | .ReferencePattern => "ReferencePattern".toList
  | .StructPatternFieldTuplePat => "StructPatternFieldTuplePat".toList
  | .StructPatternFieldIdentPat => "StructPatternFieldIdentPat".toList
  | .StructPatternFieldIdent => "StructPatternFieldIdent".toList
  | .StructPattern => "StructPattern".toList
  | .TupleStructItemsNoRange => "TupleStructItemsNoRange".toList
  | .TupleStructItemsRange => "TupleStructItemsRange".toList
  | .TupleStructPattern => "TupleStructPattern".toList
  | .TuplePatternItemsMultiple => "TuplePatternItemsMultiple".toList
  | .TuplePatternItemsRanged => "TuplePatternItemsRanged".toList
  | .TuplePattern => "TuplePattern".toList
  | .SlicePattern => "SlicePattern".toList
  | .AltPattern => "AltPattern".toList
  | .EmptyStmt => "EmptyStmt".toList
  | .TraitBound => "TraitBound".toList
  | .ImplTraitType => "ImplTraitType".toList
  | .TraitObjectType => "TraitObjectType".toList
  | .ParenthesisedType => "ParenthesisedType".toList
  | .ImplTraitTypeOneBound => "ImplTraitTypeOneBound".toList
  | .TupleType => "TupleType".toList
  | .NeverType => "NeverType".toList
  | .RawPointerType => "RawPointerType".toList
  | .ReferenceType => "ReferenceType".toList
  | .InferredType => "InferredType".toList
  | .BareFunctionType => "BareFunctionType".toList

/-- The string literal passed to `begin` in the `visit` rule of a placeholder kind. -/
def StubKind.begin_arg : StubKind → Str
  | .LifetimeParam => "LifetimeParam (INCOMPLETE -- CONTENT NOT DISPLAYED)".toList
  | .PathInExpression => "PathInExpression (INCOMPLETE -- CONTENT NOT DISPLAYED)".toList
  | .TypePathSegment => "TypePathSegment (INCOMPLETE -- CONTENT NOT DISPLAYED)".toList
  | .TypePathSegmentGeneric => "TypePathSegmentGeneric (INCOMPLETE -- CONTENT NOT DISPLAYED)".toList
  | .TypePathSegmentFunction => "TypePathSegmentFunction (INCOMPLETE -- CONTENT NOT DISPLAYED)".toList
  | .TypePath => "TypePath (INCOMPLETE -- CONTENT NOT DISPLAYED)".toList
  | .QualifiedPathInExpression => "QualifiedPathInExpression (INCOMPLETE -- CONTENT NOT DISPLAYED)".toList
  | .QualifiedPathInType => "QualifiedPathInType (INCOMPLETE -- CONTENT NOT DISPLAYED)".toList
  | .BorrowExpr => "BorrowExpr (INCOMPLETE -- CONTENT NOT DISPLAYED)".toList
  | .DereferenceExpr => "DereferenceExpr (INCOMPLETE -- CONTENT NOT DISPLAYED)".toList
  | .ErrorPropagationExpr => "ErrorPropagationExpr (INCOMPLETE -- CONTENT NOT DISPLAYED)".toList
  | .NegationExpr => "NegationExpr (INCOMPLETE -- CONTENT NOT DISPLAYED)".toList
  | .ComparisonExpr => "ComparisonExpr (INCOMPLETE -- CONTENT NOT DISPLAYED)".toList
  | .LazyBooleanExpr => "LazyBooleanExpr (INCOMPLETE -- CONTENT NOT DISPLAYED)".toList
  | .TypeCastExpr => "TypeCastExpr (INCOMPLETE -- CONTENT NOT DISPLAYED)".toList
  | .AssignmentExpr => "AssignmentExpr (INCOMPLETE -- CONTENT NOT DISPLAYED)".toList
  | .CompoundAssignmentExpr => "CompoundAssignmentExpr (INCOMPLETE -- CONTENT NOT DISPLAYED)".toList
  | .GroupedExpr => "GroupedExpr (INCOMPLETE -- CONTENT NOT DISPLAYED)".toList
  | .ArrayElemsValues => "ArrayElemsValues (INCOMPLETE -- CONTENT NOT DISPLAYED)".toList
  | .ArrayElemsCopied => "ArrayElemsCopied (INCOMPLETE -- CONTENT NOT DISPLAYED)".toList
  | .ArrayIndexExpr => "ArrayIndexExpr (INCOMPLETE -- CONTENT NOT DISPLAYED)".toList
  | .TupleExpr => "TupleExpr (INCOMPLETE -- CONTENT NOT DISPLAYED)".toList
  | .TupleIndexExpr => "TupleIndexExpr (INCOMPLETE -- CONTENT NOT DISPLAYED)".toList
  | .StructExprStruct => "StructExprStruct (INCOMPLETE -- CONTENT NOT DISPLAYED)".toList
  | .StructExprFieldIdentifier => "StructExprFieldIdentifier (INCOMPLETE -- CONTENT NOT DISPLAYED)".toList
  | .StructExprFieldIdentifierValue => "StructExprFieldIdentifierValue (INCOMPLETE -- CONTENT NOT DISPLAYED)".toList
  | .StructExprFieldIndexValue => "StructExprFieldIndexValue (INCOMPLETE -- CONTENT NOT DISPLAYED)".toList
  | .StructExprStructFields => "StructExprStructFields (INCOMPLETE -- CONTENT NOT DISPLAYED)".toList
  | .StructExprStructBase => "StructExprStructBase (INCOMPLETE -- CONTENT NOT DISPLAYED)".toList
  | .CallExpr => "CallExpr (INCOMPLETE -- CONTENT NOT DISPLAYED)".toList
  | .MethodCallExpr => "MethodCallExpr (INCOMPLETE -- CONTENT NOT DISPLAYED)".toList
  | .FieldAccessExpr => "FieldAccessExpr (INCOMPLETE -- CONTENT NOT DISPLAYED)".toList
  | .ClosureExpr => "ClosureExpr (INCOMPLETE -- CONTENT NOT DISPLAYED)".toList
  | .ContinueExpr => "ContinueExpr (INCOMPLETE -- CONTENT NOT DISPLAYED)".toList
  | .BreakExpr => "BreakExpr (INCOMPLETE -- CONTENT NOT DISPLAYED)".toList
  | .RangeFromToExpr => "RangeFromToExpr (INCOMPLETE -- CONTENT NOT DISPLAYED)".toList
  | .RangeFromExpr => "RangeFromExpr (INCOMPLETE -- CONTENT NOT DISPLAYED)".toList
  | .RangeToExpr => "RangeToExpr (INCOMPLETE -- CONTENT NOT DISPLAYED)".toList
  | .RangeFullExpr => "RangeFullExpr (INCOMPLETE -- CONTENT NOT DISPLAYED)".toList
  | .RangeFromToInclExpr => "RangeFromToInclExpr (INCOMPLETE -- CONTENT NOT DISPLAYED)".toList
  | .RangeToInclExpr => "RangeToInclExpr (INCOMPLETE -- CONTENT NOT DISPLAYED)".toList
  | .ReturnExpr => "ReturnExpr (INCOMPLETE -- CONTENT NOT DISPLAYED)".toList
  | .UnsafeBlockExpr => "UnsafeBlockExpr (INCOMPLETE -- CONTENT NOT DISPLAYED)".toList
  | .LoopExpr => "LoopExpr (INCOMPLETE -- CONTENT NOT DISPLAYED)".toList
  | .WhileLoopExpr => "WhileLoopExpr (INCOMPLETE -- CONTENT NOT DISPLAYED)".toList
  | .WhileLetLoopExpr => "WhileLetLoopExpr (INCOMPLETE -- CONTENT NOT DISPLAYED)".toList
  | .ForLoopExpr => "ForLoopExpr (INCOMPLETE -- CONTENT NOT DISPLAYED)".toList
  | .IfExprConseqElse => "IfExprConseqElse (INCOMPLETE -- CONTENT NOT DISPLAYED)".toList
  | .IfLetExpr => "IfLetExpr (INCOMPLETE -- CONTENT NOT DISPLAYED)".toList
  | .IfLetExprConseqElse => "IfLetExprConseqElse (INCOMPLETE -- CONTENT NOT DISPLAYED)".toList
  | .MatchExpr => "MatchExpr (INCOMPLETE -- CONTENT NOT DISPLAYED)".toList
  | .AwaitExpr => "AwaitExpr (INCOMPLETE -- CONTENT NOT DISPLAYED)".toList
  | .AsyncBlockExpr => "AsyncBlockExpr (INCOMPLETE -- CONTENT NOT DISPLAYED)".toList
  | .TypeParam => "TypeParam (INCOMPLETE -- CONTENT NOT DISPLAYED)".toList
  | .ConstGenericParam => "ConstGenericParam (INCOMPLETE -- CONTENT NOT DISPLAYED)".toList
  | .LifetimeWhereClauseItem => "LifetimeWhereClauseItem (INCOMPLETE -- CONTENT NOT DISPLAYED)".toList
  | .TypeBoundWhereClauseItem => "TypeBoundWhereClauseItem (INCOMPLETE -- CONTENT NOT DISPLAYED)".toList
  | .Module => "Module (INCOMPLETE -- CONTENT NOT DISPLAYED)".toList
  | .ExternCrate => "ExternCrate (INCOMPLETE -- CONTENT NOT DISPLAYED)".toList
  | .UseTreeGlob => "UseTreeGlob (INCOMPLETE -- CONTENT NOT DISPLAYED)".toList
  | .UseTreeList => "UseTreeList (INCOMPLETE -- CONTENT NOT DISPLAYED)".toList
  | .UseTreeRebind => "UseTreeRebind (INCOMPLETE -- CONTENT NOT DISPLAYED)".toList
  | .UseDeclaration => "UseDeclaration (INCOMPLETE -- CONTENT NOT DISPLAYED)".toList
  | .TypeAlias => "TypeAlias (INCOMPLETE -- CONTENT NOT DISPLAYED)".toList
  | .StructStruct => "StructStruct (INCOMPLETE -- CONTENT NOT DISPLAYED)".toList
  | .TupleStruct => "TupleStruct (INCOMPLETE -- CONTENT NOT DISPLAYED)".toList
  | .EnumItem => "EnumItem (INCOMPLETE -- CONTENT NOT DISPLAYED)".toList
  | .EnumItemTuple => "EnumItemTuple (INCOMPLETE -- CONTENT NOT DISPLAYED)".toList
  | .EnumItemStruct => "EnumItemStruct (INCOMPLETE -- CONTENT NOT DISPLAYED)".toList
  | .EnumItemDiscriminant => "EnumItemDiscriminant (INCOMPLETE -- CONTENT NOT DISPLAYED)".toList
  | .Enum => "Enum (INCOMPLETE -- CONTENT NOT DISPLAYED)".toList
  | .Union => "Union (INCOMPLETE -- CONTENT NOT DISPLAYED)".toList
  | .ConstantItem => "ConstantItem (INCOMPLETE -- CONTENT NOT DISPLAYED)".toList
  | .StaticItem => "StaticItem (INCOMPLETE -- CONTENT NOT DISPLAYED)".toList
  | .TraitItemFunc => "TraitItemFunc (INCOMPLETE -- CONTENT NOT DISPLAYED)".toList
  | .TraitItemConst => "TraitItemConst (INCOMPLETE -- CONTENT NOT DISPLAYED)".toList
  | .TraitItemType => "TraitItemType (INCOMPLETE -- CONTENT NOT DISPLAYED)".toList
  | .Trait => "Trait (INCOMPLETE -- CONTENT NOT DISPLAYED)".toList
  | .ImplBlock => "ImplBlock (INCOMPLETE -- CONTENT NOT DISPLAYED)".toList
  | .ExternalStaticItem => "ExternalStaticItem (INCOMPLETE -- CONTENT NOT DISPLAYED)".toList
  | .ExternalFunctionItem => "ExternalFunctionItem (INCOMPLETE -- CONTENT NOT DISPLAYED)".toList
  | .ExternBlock => "ExternBlock (INCOMPLETE -- CONTENT NOT DISPLAYED)".toList
  | .LiteralPattern => "LiteralPattern (INCOMPLETE -- CONTENT NOT DISPLAYED)".toList
  | .WildcardPattern => "WildcardPattern (INCOMPLETE -- CONTENT NOT DISPLAYED)".toList
  | .RangePatternBoundLiteral => "RangePatternBoundLiteral (INCOMPLETE -- CONTENT NOT DISPLAYED)".toList
  | .RangePatternBoundPath => "RangePatternBoundPath (INCOMPLETE -- CONTENT NOT DISPLAYED)".toList
  | .RangePatternBoundQualPath => "RangePatternBoundQualPath (INCOMPLETE -- CONTENT NOT DISPLAYED)".toList
  | .RangePattern => "RangePattern (INCOMPLETE -- CONTENT NOT DISPLAYED)".toList
  | .ReferencePattern => "ReferencePattern (INCOMPLETE -- CONTENT NOT DISPLAYED)".toList
  | .StructPatternFieldTuplePat => "StructPatternFieldTuplePat (INCOMPLETE -- CONTENT NOT DISPLAYED)".toList
  | .StructPatternFieldIdentPat => "StructPatternFieldIdentPat (INCOMPLETE -- CONTENT NOT DISPLAYED)".toList
  | .StructPatternFieldIdent => "StructPatternFieldIdent (INCOMPLETE -- CONTENT NOT DISPLAYED)".toList
  | .StructPattern => "StructPattern (INCOMPLETE -- CONTENT NOT DISPLAYED)".toList
  | .TupleStructItemsNoRange => "TupleStructItemsNoRange (INCOMPLETE -- CONTENT NOT DISPLAYED)".toList
  | .TupleStructItemsRange => "TupleStructItemsRange (INCOMPLETE -- CONTENT NOT DISPLAYED)".toList
  | .TupleStructPattern => "TupleStructPattern (INCOMPLETE -- CONTENT NOT DISPLAYED)".toList
  | .TuplePatternItemsMultiple => "TuplePatternItemsMultiple (INCOMPLETE -- CONTENT NOT DISPLAYED)".toList
  | .TuplePatternItemsRanged => "TuplePatternItemsRanged (INCOMPLETE -- CONTENT NOT DISPLAYED)".toList
  | .TuplePattern => "TuplePattern (INCOMPLETE -- CONTENT NOT DISPLAYED)".toList
  | .SlicePattern => "SlicePattern (INCOMPLETE -- CONTENT NOT DISPLAYED)".toList
  | .AltPattern => "AltPattern (INCOMPLETE -- CONTENT NOT DISPLAYED)".toList
  | .EmptyStmt => "EmptyStmt (INCOMPLETE -- CONTENT NOT DISPLAYED)".toList
  | .TraitBound => "TraitBound (INCOMPLETE -- CONTENT NOT DISPLAYED)".toList
  | .ImplTraitType => "ImplTraitType (INCOMPLETE -- CONTENT NOT DISPLAYED)".toList
  | .TraitObjectType => "TraitObjectType (INCOMPLETE -- CONTENT NOT DISPLAYED)".toList
  | .ParenthesisedType => "ParenthesisedType (INCOMPLETE -- CONTENT NOT DISPLAYED)".toList
  | .ImplTraitTypeOneBound => "ImplTraitTypeOneBound (INCOMPLETE -- CONTENT NOT DISPLAYED)".toList
  | .TupleType => "TupleType (INCOMPLETE -- CONTENT NOT DISPLAYED)".toList
  | .NeverType => "NeverType (INCOMPLETE -- CONTENT NOT DISPLAYED)".toList
  | .RawPointerType => "RawPointerType (INCOMPLETE -- CONTENT NOT DISPLAYED)".toList
  | .ReferenceType => "ReferenceType (INCOMPLETE -- CONTENT NOT DISPLAYED)".toList
  | .InferredType => "InferredType (INCOMPLETE -- CONTENT NOT DISPLAYED)".toList
  | .BareFunctionType => "BareFunctionType (INCOMPLETE -- CONTENT NOT DISPLAYED)".toList

/-- The string literal passed to `end` in the `visit` rule of a placeholder kind. -/
def StubKind.end_arg : StubKind → Str
  | .LifetimeParam => "LifetimeParam".toList
  | .PathInExpression => "PathInExpression".toList
  | .TypePathSegment => "TypePathSegment".toList
  | .TypePathSegmentGeneric => "TypePathSegmentGeneric".toList
  | .TypePathSegmentFunction => "TypePathSegmentFunction".toList
  | .TypePath => "TypePath".toList
  | .QualifiedPathInExpression => "QualifiedPathInExpression".toList
  | .QualifiedPathInType => "QualifiedPathInType".toList
  | .BorrowExpr => "BorrowExpr".toList
  | .DereferenceExpr => "DereferenceExpr".toList
  | .ErrorPropagationExpr => "ErrorPropagationExpr".toList
  | .NegationExpr => "NegationExpr".toList
  | .ComparisonExpr => "ComparisonExpr".toList
  | .LazyBooleanExpr => "LazyBooleanExpr".toList
  | .TypeCastExpr => "TypeCastExpr".toList
  | .AssignmentExpr => "AssignmentExpr".toList
  | .CompoundAssignmentExpr => "CompoundAssignmentExpr".toList
  | .GroupedExpr => "GroupedExpr".toList
  | .ArrayElemsValues => "ArrayElemsValues".toList
  | .ArrayElemsCopied => "ArrayElemsCopied".toList
  | .ArrayIndexExpr => "ArrayIndexExpr".toList
  | .TupleExpr => "TupleExpr".toList
  | .TupleIndexExpr => "TupleIndexExpr".toList
  | .StructExprStruct => "StructExprStruct".toList
  | .StructExprFieldIdentifier => "StructExprFieldIdentifier".toList
  | .StructExprFieldIdentifierValue => "StructExprFieldIdentifierValue".toList
  | .StructExprFieldIndexValue => "StructExprFieldIndexValue".toList
  | .StructExprStructFields => "StructExprStructFields".toList
  | .StructExprStructBase => "StructExprStructBase".toList
  | .CallExpr => "CallExpr".toList
  | .MethodCallExpr => "MethodCallExpr".toList
  | .FieldAccessExpr => "FieldAccessExpr".toList
  | .ClosureExpr => "ClosureExpr".toList
  | .ContinueExpr => "ContinueExpr".toList
  | .BreakExpr => "BreakExpr".toList
  | .RangeFromToExpr => "RangeFromToExpr".toList
  | .RangeFromExpr => "RangeFromExpr".toList
  | .RangeToExpr => "RangeToExpr".toList
  | .RangeFullExpr => "RangeFullExpr".toList
  | .RangeFromToInclExpr => "RangeFromToInclExpr".toList
  | .RangeToInclExpr => "RangeToInclExpr".toList
  | .ReturnExpr => "ReturnExpr".toList
  | .UnsafeBlockExpr => "UnsafeBlockExpr".toList
  | .LoopExpr => "LoopExpr".toList
  | .WhileLoopExpr => "WhileLoopExpr".toList
  | .WhileLetLoopExpr => "WhileLetLoopExpr".toList
  | .ForLoopExpr => "ForLoopExpr".toList
  | .IfExprConseqElse => "IfExprConseqElse".toList
  | .IfLetExpr => "IfLetExpr".toList
  | .IfLetExprConseqElse => "IfLetExprConseqElse".toList
  | .MatchExpr => "MatchExpr".toList
  | .AwaitExpr => "AwaitExpr".toList
  | .AsyncBlockExpr => "AsyncBlockExpr".toList
  | .TypeParam => "TypeParam".toList
  | .ConstGenericParam => "ConstGenericParam".toList
  | .LifetimeWhereClauseItem => "LifetimeWhereClauseItem".toList
  | .TypeBoundWhereClauseItem => "TypeBoundWhereClauseItem".toList
  | .Module => "Module".toList
  | .ExternCrate => "ExternCrate".toList
  | .UseTreeGlob => "UseTreeGlob".toList
  | .UseTreeList => "UseTreeList".toList
  | .UseTreeRebind => "UseTreeRebind".toList
  | .UseDeclaration => "UseDeclaration".toList
  | .TypeAlias => "TypeAlias".toList
  | .StructStruct => "StructStruct".toList
  | .TupleStruct => "TupleStruct".toList
  | .EnumItem => "EnumItem".toList
  | .EnumItemTuple => "EnumItemTuple".toList
  | .EnumItemStruct => "EnumItemStruct".toList
  | .EnumItemDiscriminant => "EnumItemDiscriminant".toList
  | .Enum => "Enum".toList
  | .Union => "Union".toList
  | .ConstantItem => "ConstantItem".toList
  | .StaticItem => "StaticItem".toList
  | .TraitItemFunc => "TraitItemFunc".toList
  | .TraitItemConst => "TraitItemConst".toList
  | .TraitItemType => "TraitItemType".toList
  | .Trait => "Trait".toList
  | .ImplBlock => "ImplBlock".toList
  | .ExternalStaticItem => "ExternalStaticItem".toList
  | .ExternalFunctionItem => "ExternalFunctionItem".toList
  | .ExternBlock => "ExternBlock".toList
  | .LiteralPattern => "LiteralPattern".toList
  | .WildcardPattern => "WildcardPattern".toList
  | .RangePatternBoundLiteral => "RangePatternBoundLiteral".toList
  | .RangePatternBoundPath => "RangePatternBoundPath".toList
  | .RangePatternBoundQualPath => "RangePatternBoundQualPath".toList
  | .RangePattern => "RangePattern".toList
  | .ReferencePattern => "ReferencePattern".toList
  | .StructPatternFieldTuplePat => "StructPatternFieldTuplePat".toList
  | .StructPatternFieldIdentPat => "StructPatternFieldIdentPat".toList
  | .StructPatternFieldIdent => "StructPatternFieldIdent".toList
  | .StructPattern => "StructPattern".toList
  | .TupleStructItemsNoRange => "TupleStructItemsNoRange".toList
  | .TupleStructItemsRange => "TupleStructItemsRange".toList
  | .TupleStructPattern => "TupleStructPattern".toList
  | .TuplePatternItemsMultiple => "TuplePatternItemsMultiple".toList
  | .TuplePatternItemsRanged => "TuplePatternItemsRanged".toList
  | .TuplePattern => "TuplePattern".toList
  | .SlicePattern => "SlicePattern".toList
  | .AltPattern => "AltPattern".toList
  | .EmptyStmt => "EmptyStmt".toList
  | .TraitBound => "TraitBound".toList
  | .ImplTraitType => "ImplTraitType".toList
  | .TraitObjectType => "TraitObjectType".toList
  | .ParenthesisedType => "ParenthesisedType".toList
  | .ImplTraitTypeOneBound => "ImplTraitTypeOneBound".toList
  | .TupleType => "TupleType".toList
  | .NeverType => "NeverType".toList
  | .RawPointerType => "RawPointerType".toList
  | .ReferenceType => "ReferenceType".toList
  | .InferredType => "InferredType".toList
  | .BareFunctionType => "BareFunctionType".toList

/-- A HIR node as the dump sees it: one constructor per `visit` overload, with
the fields that overload reads.  Textual self-descriptions (`as_string ()`)
and identity mappings (`get_mappings ().as_string ()`) are owned by other
subsystems and appear as the strings they return.  A child that the C++
reaches through `accept_vis` or `visit_lhs` and the like is a `Node`. -/
inductive Node where
  | Lifetime (is_error : Bool) (lifetime_type : LifetimeType) (name : Str)
  | stub (kind : StubKind) (contents : List Node)
  | LiteralExpr (literal : Str) (mappings : Str)
  | ArithmeticOrLogicalExpr (expr_type : ArithmeticOrLogicalOperator) (lhs rhs : Node)
  | ArrayExpr (inner_attrs : List Attribute) (as_string : Str)
  | BlockExpr (inner_attrs : List Attribute) (statements : List Node) (expr : Option Str)
  | IfExpr (if_condition : Node) (if_block : Node)
  | Function (function_name : Str) (return_type : Option Str)
      (function_params : List FunctionParam) (definition : Node) (impl_mappings : Str)
  | IdentifierPattern (identifier : Str)
  | LetStmt (pattern : Str) (type : Option Str) (init_expr : Option Node)
  | ExprStmt (expr : Node)
  | ArrayType (element_type : Str) (size_expr : Node)
  | SliceType (element_type : Str)

/-- What the dump reads of a `HIR::Crate`. -/
structure Crate where
  inner_attrs : List Attribute
  items : List Node
  mappings : Str

/-- Modelled from the spec: the accessor `BlockExpr::has_statements ()` is declared in a header
that is not among the sources.  "For each statement, a curly Stmt frame": the
block has statements when its statement list is not empty. -/
def has_statements (statements : List Node) : Bool := !statements.isEmpty

/-- Modelled from the spec: the accessor `Function::has_function_params ()` is declared in a
header that is not among the sources.  "Optional parameter list": the
function has parameters when its parameter list is not empty. -/
def has_function_params (function_params : List FunctionParam) : Bool :=
  !function_params.isEmpty

/-- The rule `Dump::visit (AST::Attribute &)`. -/
def Dump.visit_Attribute (self : Dump) (attr : Attribute) : Dump :=
  let self1 := self.put attr.path false
  match attr.attr_input with
  | some input => self1.put input false
  | none => self1

/-- The method `Dump::do_inner_attrs`. -/
def Dump.do_inner_attrs (self : Dump) (attrs : List Attribute) : Except Abort Dump :=
  if attrs.isEmpty then .ok self
  else
    let self1 := self.begin "inner_attrs".toList .SQUARE
    let self2 := attrs.foldl (fun acc attr => acc.visit_Attribute attr) self1
    self2.end_ "inner_attrs".toList .SQUARE

/-- The switch of `Dump::visit (ArithmeticOrLogicalExpr &)`: the value given to
`operator_str`, or `none` where the switch reaches `gcc_unreachable ()`. -/
def operator_str : ArithmeticOrLogicalOperator → Option Str
  | .ADD => some "+".toList
  | .SUBTRACT => some "-".toList
  | .MULTIPLY => some "*".toList
  | .DIVIDE => some "/".toList
  | .MODULUS => some "%".toList
  | .BITWISE_AND => some "&".toList
  | .BITWISE_OR => some "|".toList
  | .BITWISE_XOR => some "^".toList
  | .LEFT_SHIFT => some "<<".toList
  | .RIGHT_SHIFT => some ">>".toList
  | .out_of_domain _ => none

mutual
/-- The rules `Dump::visit (K &)`, selected by the kind of the node
(`accept_vis`). -/
def Dump.visit (self : Dump) : Node → Except Abort Dump
  | .Lifetime is_error lifetime_type name =>
    if is_error then
      .ok (self.put "ERROR-MARK-STRING error lifetime ".toList false)
    else
      match lifetime_type with
      | .NAMED => .ok (self.put ("'".toList ++ name) false)
      | .STATIC => .ok (self.put "'static".toList false)
      | .WILDCARD => .ok (self.put "'_".toList false)
      | .out_of_domain _ => .ok (self.put "ERROR-MARK-STRING: lifetime type failure".toList false)
  | .stub kind _ =>
    (self.begin kind.begin_arg delim_default).end_ kind.end_arg delim_default
  | .LiteralExpr literal mappings =>
    .ok (self.put (literal ++ " ".toList ++ mappings) false)
  | .ArithmeticOrLogicalExpr expr_type lhs rhs =>
    match operator_str expr_type with
    | none => .error ⟨.gcc_unreachable, self⟩
    | some op => do
      let self1 ← self.visit lhs
      let self2 := self1.put [] true
      let self3 := self2.put op true
      self3.visit rhs
  | .ArrayExpr inner_attrs as_string => do
    let self1 := self.begin "ArrayExpr".toList delim_default
    let self2 ← self1.do_inner_attrs inner_attrs
    let self3 := self2.put as_string true
    self3.end_ "ArrayExpr".toList delim_default
  | .BlockExpr inner_attrs statements expr => do
    let self1 := self.begin "BlockExpr".toList .SQUARE
    let self2 ← self1.do_inner_attrs inner_attrs
    let self3 ← if has_statements statements then self2.visit_stmts statements else .ok self2
    let self4 :=
      match expr with
      | some e => self3.put ("final expression: ".toList ++ e) true
      | none => self3
    self4.end_ "BlockExpr".toList delim_default
  | .IfExpr if_condition if_block => do
    let self1 := self.begin "IfExpr".toList delim_default
    let self2 := self1.begin "condition".toList delim_default
    let self3 ← self2.visit if_condition
    let self4 ← self3.end_ "condition".toList delim_default
    let self5 := self4.begin "if_block".toList delim_default
    let self6 ← self5.visit if_block
    let self7 ← self6.end_ "if_block".toList delim_default
    self7.end_ "IfExpr".toList delim_default
  | .Function function_name return_type function_params definition impl_mappings => do
    let self1 := self.begin "Function".toList .CURLY
    let self2 := self1.put ("func_name: ".toList ++ function_name ++ ",".toList) true
    let self3 := self2.put "return_type: ".toList false
    let self4 :=
      match return_type with
      | some ret_type => self3.put (ret_type ++ ",".toList) true
      | none => self3.put "void,".toList true
    let self5 ←
      if has_function_params function_params then do
        let p1 := self4.begin "params".toList delim_default
        let p2 := function_params.foldl
          (fun acc item => acc.put (item.as_string ++ ",".toList) false) p1
        let p3 ← p2.end_ "params".toList delim_default
        let p4 := p3.begin "node_mappings".toList delim_default
        let p5 := function_params.foldl
          (fun acc item =>
            acc.put (item.param_name ++ ":".toList ++ item.mappings ++ ",".toList) true) p4
        let p6 ← p5.end_ "params".toList delim_default
        p6.end_ "node_mappings".toList delim_default
      else .ok self4
    let self6 ← self5.visit definition
    let self7 := self6.put ("node_mappings: ".toList ++ impl_mappings) true
    self7.end_ "Function".toList .CURLY
  | .IdentifierPattern identifier =>
    .ok (self.put identifier false)
  | .LetStmt pattern type init_expr => do
    let self1 := self.begin "LetStmt".toList .CURLY
    let self2 := self1.put pattern false
    let self3 :=
      match type with
      | some ret_type => self2.put (": ".toList ++ ret_type) false
      | none => self2
    let self4 ←
      match init_expr with
      | some expr => do
        let e1 := self3.begin "Expr".toList .CURLY
        let e2 ← e1.visit expr
        e2.end_ "Expr".toList .CURLY
      | none => .ok self3
    self4.end_ "LetStmt".toList .CURLY
  | .ExprStmt expr =>
    self.visit expr
  | .ArrayType element_type size_expr => do
    let self1 := self.put ("[".toList ++ element_type ++ ";".toList) false
    let self2 ← self1.visit size_expr
    .ok (self2.put "]".toList false)
  | .SliceType element_type =>
    .ok (self.put ("&[".toList ++ element_type ++ "]".toList) false)
/-- The statement loop of `Dump::visit (BlockExpr &)`: each statement dumped
inside a `Stmt` frame. -/
def Dump.visit_stmts (self : Dump) : List Node → Except Abort Dump
  | [] => .ok self
  | stmt :: stmts => do
    let self1 := self.begin "Stmt".toList delim_default
    let self2 ← self1.visit stmt
    let self3 ← self2.end_ "Stmt".toList delim_default
    self3.visit_stmts stmts
end

/-- The item loop of `Dump::go`: `item->accept_vis (*this)` for each item. -/
def Dump.visit_items (self : Dump) : List Node → Except Abort Dump
  | [] => .ok self
  | item :: items => do
    let self1 ← self.visit item
    self1.visit_items items

/-- The method `Dump::go (HIR::Crate &)`. -/
def Dump.go (self : Dump) (crate : Crate) : Except Abort Dump := do
  let self1 := self.begin "Crate".toList delim_default
  let self2 :=
    if !crate.inner_attrs.isEmpty then
      let a1 := self1.put "inner_attrs: [".toList false
      let a2 := crate.inner_attrs.foldl (fun acc attr => acc.put attr.as_string false) a1
      a2.put "]".toList true
    else self1
  let self3 := self2.begin "items".toList .SQUARE
  let self4 ← self3.visit_items crate.items
  let self5 ← self4.end_ "items".toList .SQUARE
  let self6 := self5.put "node_mapping: ".toList false
  let self7 := self6.put crate.mappings true
  self7.end_ "Crate".toList delim_default

/-- What the loop of `put` appends to the stream and the value of `first` it
ends with, read off the text left to scan, character by character: `cur` is the
fragment collected since the last line break.  A fragment is written when the
line break that ends it is met.  `put_loop_eq` proves that `Dump.put_loop`
computes this. -/
def loop_writes (ind : Str) : Str → Str → Bool → Str × Bool
  | [], _, first => ([], first)
  | c :: cs, cur, first =>
    if c = '\n' then
      ((if first then [] else endl ++ ind) ++ cur ++ (loop_writes ind cs [] false).1,
        (loop_writes ind cs [] false).2)
    else loop_writes ind cs (cur ++ [c]) first

/-- The state `put` returns, in closed form (`put_eq` proves it). -/
def put_result (self : Dump) (text : Str) (endline : Bool) : Dump :=
  { stream := self.stream
      ++ (if self.beg_of_line then self.indentation.str else [])
      ++ (loop_writes self.indentation.str text [] true).1
      ++ (if (loop_writes self.indentation.str text [] true).2 then text else [])
      ++ (if endline then endl else []),
    indentation := self.indentation,
    beg_of_line := endline }

/-- The state `end` returns when its depth assertion holds (`end_eq` proves it). -/
def Dump.end_state (self : Dump) (name : Str) (d : delim) : Dump :=
  (({ self with indentation := ⟨self.indentation.tabs - 1⟩ } : Dump).write endl).put
    (delims d.index 1 ++ " // ".toList ++ name) put_endline_default

/-- The indentation depth a run ends with, `none` when it aborted. -/
def final_depth : Except Abort Dump → Option Nat
  | .ok st => some st.indentation.tabs
  | .error _ => none

/-- The failure of an aborted run together with the depth at the abort, `none`
when the run completed. -/
def abort_of : Except Abort Dump → Option (Failure × Nat)
  | .ok _ => none
  | .error a => some (a.failure, a.state.indentation.tabs)

/-- The lines of an output text: the pieces between line breaks, in order (a
text ending in a line break has an empty last line). -/
def lines : Str → List Str
  | [] => [[]]
  | c :: cs =>
    if c = '\n' then [] :: lines cs
    else
      match lines cs with
      | [] => [[c]]
      | l :: ls => (c :: l) :: ls

/-- A line is blank when it holds nothing but whitespace. -/
def is_blank (l : Str) : Bool := l.all Char.isWhitespace

/-- The lines of an output text that are not blank. -/
def non_blank_lines (out : Str) : List Str := (lines out).filter (fun l => !is_blank l)

/-- The open symbol of a delimiter kind, as the spec names it. -/
def open_symbol : delim → Char
  | .CURLY => '{'
  | .SQUARE => '['

/-- The close symbol of a delimiter kind, as the spec names it. -/
def close_symbol : delim → Char
  | .CURLY => '}'
  | .SQUARE => ']'

/-- The marker a placeholder frame carries after its kind name. -/
def incomplete_marker : Str := " (INCOMPLETE -- CONTENT NOT DISPLAYED)".toList

/-- The function item `fn f (x : i32) {}`: one parameter, an empty body. -/
def fn_one_param : Node :=
  .Function "f".toList none [⟨"x : i32".toList, "x".toList, "[x]".toList⟩]
    (.BlockExpr [] [] none) "[f]".toList

/-- A crate whose only item is `fn f (x : i32) {}`. -/
def crate_one_param : Crate :=
  { inner_attrs := [], items := [fn_one_param], mappings := "[crate]".toList }

/-- A crate whose only item is `fn g (x : i32) { 1 + 2; }`: its one binary
expression carries the operator code `ADD`. -/
def crate_add : Crate :=
  { inner_attrs := [],
    items := [.Function "g".toList none [⟨"x : i32".toList, "x".toList, "[x]".toList⟩]
      (.BlockExpr []
        [.ExprStmt (.ArithmeticOrLogicalExpr .ADD
          (.LiteralExpr "1".toList "[1]".toList) (.LiteralExpr "2".toList "[2]".toList))]
        none)
      "[g]".toList],
    mappings := "[crate]".toList }

/-- The literal `1` with its identity mapping. -/
def literal_one : Node := .LiteralExpr "1".toList "[1]".toList

/-- The literal `2` with its identity mapping. -/
def literal_two : Node := .LiteralExpr "2".toList "[2]".toList

/-- A call expression; `CallExpr` has a placeholder rule. -/
def call_expr : Node := .stub .CallExpr []

/-- The state after the placeholder frame of `call_expr`, dumped at depth one
from a line start into an empty stream. -/
def call_expr_dumped : Dump :=
  { stream :=
      "\t\n\tCallExpr (INCOMPLETE -- CONTENT NOT DISPLAYED) \x7b\n\n\t\x7d // CallExpr\n".toList,
    indentation := ⟨1⟩,
    beg_of_line := true }

/-- The state `begin` returns, computed through `put_result`
(`begin_eq_result` proves it). -/
def begin_result (self : Dump) (name : Str) (d : delim) : Dump :=
  let self1 := put_result self [] put_endline_default
  let self2 := put_result self1 (name ++ " ".toList ++ delims d.index 0) true
  { self2 with indentation := self2.indentation.increment }

/-- The outcome of `end`, computed through `put_result` (`end_eq_result` proves it). -/
def end_result (self : Dump) (name : Str) (d : delim) : Except Abort Dump :=
  match self.indentation.decrement with
  | none => .error ⟨.rust_assert, self⟩
  | some ind =>
    .ok (put_result (({ self with indentation := ind } : Dump).write endl)
      (delims d.index 1 ++ " // ".toList ++ name) put_endline_default)

/-- The indentation prefix `put` writes first: the prefix of the current depth
at a line start, nothing otherwise. -/
def Dump.line_prefix (self : Dump) : Str :=
  if self.beg_of_line then self.indentation.str else []

/-- The text of the error sentinel of a lifetime flagged as an error. -/
def error_lifetime_text : Str := "ERROR-MARK-STRING error lifetime ".toList

/-- The text written for a lifetime type outside `NAMED`, `STATIC`, `WILDCARD`. -/
def lifetime_type_failure_text : Str := "ERROR-MARK-STRING: lifetime type failure".toList

/-- The array type `[i32; 3]`: element type text `i32`, size expression the
literal `3`. -/
def array_type_i32_3 : Node := .ArrayType "i32".toList (.LiteralExpr "3".toList "[3]".toList)

/-- The optional inner-attribute sub-frame of a block, in the words of the spec:
nothing when there are no inner attributes, otherwise a square frame named
`inner_attrs` around the attributes. -/
def inner_attrs_frame (self : Dump) (inner_attrs : List Attribute) : Except Abort Dump :=
  match inner_attrs with
  | [] => .ok self
  | _ :: _ =>
    (inner_attrs.foldl (fun acc attr => acc.visit_Attribute attr)
      (self.begin "inner_attrs".toList .SQUARE)).end_ "inner_attrs".toList .SQUARE

/-- One statement of a block, in the words of the spec: a curly frame named
`Stmt` wrapping the statement's recursive dump. -/
def stmt_frame (self : Dump) (stmt : Node) : Except Abort Dump :=
  (self.begin "Stmt".toList .CURLY).visit stmt >>= fun a => a.end_ "Stmt".toList .CURLY

/-- The summary line of a block's trailing expression, in the words of the
spec: nothing when the block has none, otherwise one terminated line reading
"final expression: " + t. -/
def final_expression_line (self : Dump) (expr : Option Str) : Dump :=
  match expr with
  | none => self
  | some t =>
    ⟨self.stream ++ self.line_prefix ++ ("final expression: ".toList ++ t) ++ endl,
      self.indentation, true⟩

/-- The content of a block frame in the words of the spec, written from the
state reached after the frame's opener: the optional inner-attribute
sub-frame, then one `Stmt` frame per statement in statement order, then the
summary line of the trailing expression. -/
def block_contents (self : Dump) (inner_attrs : List Attribute) (statements : List Node)
    (expr : Option Str) : Except Abort Dump :=
  inner_attrs_frame self inner_attrs >>= fun s1 =>
    statements.foldlM stmt_frame s1 >>= fun s2 =>
      .ok (final_expression_line s2 expr)

/-- The state `self` with the text `pre` in front of its stream: the same dump
state over a sink that already held `pre`. -/
def Dump.shift (pre : Str) (self : Dump) : Dump :=
  { self with stream := pre ++ self.stream }

/-- The outcome of a run with the text `pre` in front of the stream it ends with. -/
def shift_run (pre : Str) : Except Abort Dump → Except Abort Dump
  | .ok st => .ok (st.shift pre)
  | .error a => .error ⟨a.failure, a.state.shift pre⟩

/-- The content of the sink when a run ends, completed or aborted. -/
def final_stream : Except Abort Dump → Str
  | .ok st => st.stream
  | .error a => a.state.stream

/-- The binding statement `let x;`: a pattern, no type annotation, no initializer. -/
def let_x : Node := .LetStmt "x".toList none none

/-- The `while` loop of `Dump::put` with an iteration counter: the same loop as
`Dump.put_loop`, returning also how many times its body ran. -/
def Dump.put_loop_counted (text : Str) (self : Dump) (prev : Nat) (first : Bool) :
    (Dump × Bool) × Nat :=
  match h : find text '\n' prev with
  | none => ((self, first), 0)
  | some pos =>
    let self1 := if !first then (self.write endl).write self.indentation.str else self
    let self2 := self1.write (substr text prev (pos - prev))
    let r := Dump.put_loop_counted text self2 (pos + 1) false
    (r.1, r.2 + 1)
termination_by text.length - prev
decreasing_by
  have key : ∀ (l : Str) (i p : Nat), find_from '\n' l i = some p → i ≤ p ∧ p < i + l.length := by
    intro l
    induction l with
    | nil => intro i p hp; simp [find_from] at hp
    | cons x xs ih =>
      intro i p hp
      simp only [find_from] at hp
      split at hp
      · simp only [Option.some.injEq] at hp
        simp only [List.length_cons]
        omega
      · have := ih (i + 1) p hp
        simp only [List.length_cons]
        omega
  have hb := key (text.drop prev) prev pos h
  simp only [List.length_drop] at hb
  omega

/-! ## The line emitter -/

theorem find_from_eq_none {c : Char} {l : Str} (h : c ∉ l) (i : Nat) :
    find_from c l i = none := by
  induction l generalizing i with
  | nil => rfl
  | cons x xs ih =>
    have hx : x ≠ c := fun e => h (by simp [e])
    have hxs : c ∉ xs := fun m => h (List.mem_cons_of_mem _ m)
    simp [find_from, hx, ih hxs]

theorem find_eq_none {c : Char} {text : Str} (h : c ∉ text) (pos : Nat) :
    find text c pos = none :=
  find_from_eq_none (fun m => h (List.mem_of_mem_drop m)) pos

theorem put_loop_of_find_none {text : Str} {prev : Nat}
    (h : find text '\n' prev = none) (self : Dump) (first : Bool) :
    Dump.put_loop text self prev first = (self, first) := by
  rw [Dump.put_loop]
  split
  · rfl
  · rename_i pos hpos
    rw [h] at hpos
    cases hpos

theorem write_indentation (self : Dump) (x : Str) :
    (self.write x).indentation = self.indentation := rfl

theorem write_beg_of_line (self : Dump) (x : Str) :
    (self.write x).beg_of_line = self.beg_of_line := rfl

theorem find_from_eq_some {c : Char} {l : Str} {i p : Nat} (h : find_from c l i = some p) :
    ∃ frag tail, l = frag ++ c :: tail ∧ c ∉ frag ∧ p = i + frag.length := by
  induction l generalizing i with
  | nil => simp [find_from] at h
  | cons x xs ih =>
    simp only [find_from] at h
    split at h
    · rename_i hx
      simp only [Option.some.injEq] at h
      exact ⟨[], xs, by simp [hx], by simp, by simp [h]⟩
    · rename_i hx
      obtain ⟨frag, tail, h1, h2, h3⟩ := ih h
      refine ⟨x :: frag, tail, by simp [h1], ?_, by simp [h3]; omega⟩
      intro m
      rcases List.mem_cons.1 m with e | m
      · exact hx e.symm
      · exact h2 m

theorem find_eq_some {text : Str} {prev pos : Nat} (h : find text '\n' prev = some pos) :
    ∃ frag, '\n' ∉ frag ∧ text.drop prev = frag ++ '\n' :: text.drop (pos + 1) ∧
      substr text prev (pos - prev) = frag := by
  obtain ⟨frag, tail, h1, h2, h3⟩ := find_from_eq_some h
  have hpos : pos - prev = frag.length := by omega
  have htail : text.drop (pos + 1) = tail := by
    have : pos + 1 = prev + (frag.length + 1) := by omega
    rw [this, ← List.drop_drop, h1]
    simp
  refine ⟨frag, h2, by rw [htail, h1], ?_⟩
  unfold substr
  rw [h1, hpos]
  simp

theorem loop_writes_no_break {ind l : Str} (h : '\n' ∉ l) (cur : Str) (first : Bool) :
    loop_writes ind l cur first = ([], first) := by
  induction l generalizing cur with
  | nil => rfl
  | cons x xs ih =>
    have hx : x ≠ '\n' := fun e => h (by simp [e])
    have hxs : '\n' ∉ xs := fun m => h (List.mem_cons_of_mem _ m)
    simp [loop_writes, hx, ih hxs]

theorem loop_writes_break {ind frag : Str} (h : '\n' ∉ frag) (tail cur : Str) (first : Bool) :
    loop_writes ind (frag ++ '\n' :: tail) cur first =
      ((if first then [] else endl ++ ind) ++ (cur ++ frag) ++ (loop_writes ind tail [] false).1,
        (loop_writes ind tail [] false).2) := by
  induction frag generalizing cur with
  | nil => simp [loop_writes]
  | cons x xs ih =>
    have hx : x ≠ '\n' := fun e => h (by simp [e])
    have hxs : '\n' ∉ xs := fun m => h (List.mem_cons_of_mem _ m)
    simp [loop_writes, hx, ih hxs]

theorem mem_drop_of_find_none {text : Str} {prev : Nat} (h : find text '\n' prev = none) :
    '\n' ∉ text.drop prev := by
  intro m
  have key : ∀ (l : Str) (i : Nat), '\n' ∈ l → find_from '\n' l i ≠ none := by
    intro l
    induction l with
    | nil => intro i m; simp at m
    | cons x xs ih =>
      intro i m
      simp only [find_from]
      split
      · simp
      · rename_i hx
        rcases List.mem_cons.1 m with e | m
        · exact absurd e.symm hx
        · exact ih (i + 1) m
  exact key _ prev m h

theorem put_loop_eq (text : Str) (self : Dump) (prev : Nat) (first : Bool) :
    Dump.put_loop text self prev first =
      (self.write (loop_writes self.indentation.str (text.drop prev) [] first).1,
        (loop_writes self.indentation.str (text.drop prev) [] first).2) := by
  induction self, prev, first using Dump.put_loop.induct text with
  | case1 self prev first h =>
    rw [put_loop_of_find_none h, loop_writes_no_break (mem_drop_of_find_none h)]
    simp [Dump.write]
  | case2 self prev first pos h self1 self2 ih =>
    rw [Dump.put_loop]
    split
    · rename_i h2
      rw [h] at h2
      cases h2
    · rename_i pos2 h2
      rw [h] at h2
      cases h2
      obtain ⟨frag, hfrag, hdrop, hsub⟩ := find_eq_some h
      have hind : self2.indentation = self.indentation := by
        show (Dump.write self1 _).indentation = _
        rw [write_indentation]
        show (if (!first) = true then _ else _ : Dump).indentation = _
        split <;> rfl
      have hstream : self2.stream =
          self.stream ++ (if first then [] else endl ++ self.indentation.str) ++ frag := by
        show (Dump.write self1 (substr text prev (pos - prev))).stream = _
        rw [hsub]
        show self1.stream ++ frag = _
        congr 1
        show (if (!first) = true then _ else _ : Dump).stream = _
        cases first <;> simp [Dump.write]
      have hbol : self2.beg_of_line = self.beg_of_line := by
        show (Dump.write self1 _).beg_of_line = _
        rw [write_beg_of_line]
        show (if (!first) = true then _ else _ : Dump).beg_of_line = _
        split <;> rfl
      refine ih.trans ?_
      rw [hdrop, loop_writes_break hfrag, hind]
      refine Prod.ext ?_ rfl
      have hw : ∀ (a b : Dump) (x y : Str), a.stream ++ x = b.stream ++ y →
          a.indentation = b.indentation → a.beg_of_line = b.beg_of_line →
          a.write x = b.write y := by
        intro a b x y h1 h2 h3
        cases a; cases b
        simp only [Dump.write] at h1 h2 h3 ⊢
        simp [h1, h2, h3]
      exact hw _ _ _ _ (by rw [hstream]; simp) hind hbol

theorem put_eq (self : Dump) (text : Str) (endline : Bool) :
    self.put text endline = put_result self text endline := by
  unfold Dump.put put_result
  simp only [put_loop_eq, List.drop_zero]
  cases self with
  | mk st ind bol =>
    cases bol <;> cases endline <;> simp [Dump.write] <;>
      (generalize loop_writes (Indent.str ind) text [] true = r
       obtain ⟨out, first⟩ := r
       cases first <;> simp)

theorem put_of_no_break {text : Str} (h : '\n' ∉ text) (self : Dump) (endline : Bool) :
    self.put text endline =
      { stream := self.stream ++ (if self.beg_of_line then self.indentation.str else [])
          ++ text ++ (if endline then endl else []),
        indentation := self.indentation,
        beg_of_line := endline } := by
  rw [put_eq]
  unfold put_result
  rw [loop_writes_no_break h]
  simp

theorem put_indentation (self : Dump) (text : Str) (endline : Bool) :
    (self.put text endline).indentation = self.indentation := by
  rw [put_eq]; rfl

theorem put_beg_of_line (self : Dump) (text : Str) (endline : Bool) :
    (self.put text endline).beg_of_line = endline := by
  rw [put_eq]; rfl

/-! ## The bracket framer -/

theorem begin_indentation (self : Dump) (name : Str) (d : delim) :
    (self.begin name d).indentation = self.indentation.increment := by
  simp only [Dump.begin, put_indentation]

theorem begin_tabs (self : Dump) (name : Str) (d : delim) :
    (self.begin name d).indentation.tabs = self.indentation.tabs + 1 := by
  rw [begin_indentation]; rfl

theorem begin_beg_of_line (self : Dump) (name : Str) (d : delim) :
    (self.begin name d).beg_of_line = true := by
  simp only [Dump.begin, put_beg_of_line]

theorem end_eq (self : Dump) (name : Str) (d : delim) :
    self.end_ name d =
      if self.indentation.tabs = 0 then .error ⟨.rust_assert, self⟩
      else .ok (self.end_state name d) := by
  unfold Dump.end_ Indent.decrement Dump.end_state
  split <;> rename_i h
  · split at h
    · rename_i h0; simp [h0]
    · cases h
  · split at h
    · cases h
    · rename_i h0
      simp only [Option.some.injEq] at h
      subst h
      simp [h0]

theorem end_state_tabs (self : Dump) (name : Str) (d : delim) :
    (self.end_state name d).indentation.tabs = self.indentation.tabs - 1 := by
  unfold Dump.end_state
  rw [put_indentation]
  rfl

theorem end_state_beg_of_line (self : Dump) (name : Str) (d : delim) :
    (self.end_state name d).beg_of_line = true := by
  unfold Dump.end_state
  rw [put_beg_of_line]
  rfl

theorem foldl_put_indentation {α : Type} (f : α → Str) (endline : Bool) (l : List α)
    (self : Dump) :
    (l.foldl (fun acc item => acc.put (f item) endline) self).indentation = self.indentation := by
  induction l generalizing self with
  | nil => rfl
  | cons x xs ih => simp only [List.foldl_cons, ih, put_indentation]

theorem visit_Attribute_indentation (self : Dump) (attr : Attribute) :
    (self.visit_Attribute attr).indentation = self.indentation := by
  unfold Dump.visit_Attribute
  split <;> simp only [put_indentation]

theorem foldl_visit_Attribute_indentation (l : List Attribute) (self : Dump) :
    (l.foldl (fun acc attr => acc.visit_Attribute attr) self).indentation
      = self.indentation := by
  induction l generalizing self with
  | nil => rfl
  | cons x xs ih => simp only [List.foldl_cons, ih, visit_Attribute_indentation]

theorem ok_bind (a : Dump) (f : Dump → Except Abort Dump) :
    (Except.ok a >>= f) = f a := rfl

theorem error_bind (e : Abort) (f : Dump → Except Abort Dump) :
    ((Except.error e : Except Abort Dump) >>= f) = Except.error e := rfl

theorem delims_open (d : delim) : delims d.index 0 = [open_symbol d] := by
  cases d <;> rfl

theorem delims_close (d : delim) : delims d.index 1 = [close_symbol d] := by
  cases d <;> rfl

theorem open_symbol_ne_break (d : delim) : open_symbol d ≠ '\n' := by
  cases d <;> decide

theorem close_symbol_ne_break (d : delim) : close_symbol d ≠ '\n' := by
  cases d <;> decide

theorem indent_str_no_break (i : Indent) : '\n' ∉ i.str := by
  unfold Indent.str
  intro h
  have := List.eq_of_mem_replicate h
  exact absurd this (by decide)

theorem begin_eq {name : Str} (h : '\n' ∉ name) (self : Dump) (d : delim) :
    self.begin name d =
      { stream := self.stream ++ (if self.beg_of_line then self.indentation.str else [])
          ++ endl ++ (self.indentation.str ++ (name ++ [' ', open_symbol d]) ++ endl),
        indentation := ⟨self.indentation.tabs + 1⟩,
        beg_of_line := true } := by
  have h2 : '\n' ∉ name ++ " ".toList ++ delims d.index 0 := by
    rw [delims_open]
    simp only [List.mem_append, not_or]
    exact ⟨⟨h, by decide⟩, by simpa using (open_symbol_ne_break d).symm⟩
  simp only [Dump.begin, put_of_no_break (List.not_mem_nil _), put_of_no_break h2]
  simp [put_endline_default, Indent.increment, delims_open]

theorem end_state_eq {name : Str} (h : '\n' ∉ name) (self : Dump) (d : delim) :
    self.end_state name d =
      { stream := self.stream ++ endl
          ++ (if self.beg_of_line then Indent.str ⟨self.indentation.tabs - 1⟩ else [])
          ++ ([close_symbol d] ++ " // ".toList ++ name) ++ endl,
        indentation := ⟨self.indentation.tabs - 1⟩,
        beg_of_line := true } := by
  have h2 : '\n' ∉ delims d.index 1 ++ " // ".toList ++ name := by
    rw [delims_close]
    simp only [List.mem_append, not_or]
    exact ⟨⟨by simpa using (close_symbol_ne_break d).symm, by decide⟩, h⟩
  simp only [Dump.end_state, put_of_no_break h2]
  simp [put_endline_default, Dump.write, delims_close]

/-! ## Depth bookkeeping of the rendering rules -/

/-- C1: the begin/end pairing of the rendering rules fails for a function with
parameters.  Visiting `fn name (p, ps...) {}` from any state of depth `n + 1`
runs to completion and leaves the depth at `n`, one less than before the
visit: the parameter block closes three frames (`end ("params")` twice and
`end ("node_mappings")`) for the two it opens. -/
theorem visit_Function_with_params_depth (function_name : Str) (return_type : Option Str)
    (p : FunctionParam) (ps : List FunctionParam) (impl_mappings stream : Str)
    (n : Nat) (bol : Bool) :
    final_depth ((⟨stream, ⟨n + 1⟩, bol⟩ : Dump).visit
      (.Function function_name return_type (p :: ps) (.BlockExpr [] [] none) impl_mappings))
      = some n := by
  cases return_type <;>
    simp [Dump.visit, has_statements, has_function_params, Dump.do_inner_attrs, end_eq,
      ok_bind, error_bind, begin_tabs,
      put_indentation, end_state_tabs, foldl_put_indentation, final_depth]

/-- C2: the depth does go below zero during `Dump::go`.  For the crate whose only
item is `fn f (x : i32) {}`, dumped from a fresh state, the run aborts on the
depth assertion of `Indent::decrement`, in a state whose depth is already
zero: the closing `end ("Crate")` decrements depth zero. -/
theorem go_one_param_decrements_zero_depth (beg_of_line : Bool) :
    abort_of ((Dump.new [] beg_of_line).go crate_one_param) = some (.rust_assert, 0) := by
  simp [crate_one_param, fn_one_param, Dump.go, Dump.visit_items, Dump.new, Indent.new,
    Dump.visit, has_statements, has_function_params, Dump.do_inner_attrs, end_eq, ok_bind,
    error_bind, begin_tabs,
    put_indentation, end_state_tabs, foldl_put_indentation, abort_of]

/-- C3: a crate all of whose operator codes are in the domain can still make
`Dump::go` fail.  The crate `fn g (x : i32) { 1 + 2; }` (operator `ADD`) does
not run to completion from a fresh state: the dump aborts, and the failure is
the depth assertion, not the unreachable branch of the operator switch. -/
theorem go_aborts_with_in_domain_operators (beg_of_line : Bool) :
    (∀ st, (Dump.new [] beg_of_line).go crate_add ≠ .ok st) ∧
    ∃ a, (Dump.new [] beg_of_line).go crate_add = .error a ∧ a.failure = .rust_assert := by
  have h : abort_of ((Dump.new [] beg_of_line).go crate_add) = some (.rust_assert, 0) := by
    simp [crate_add, Dump.go, Dump.visit_items, Dump.new, Indent.new,
      Dump.visit, Dump.visit_stmts, has_statements, has_function_params, operator_str,
      Dump.do_inner_attrs, end_eq, ok_bind,
      error_bind, begin_tabs, put_indentation, end_state_tabs, foldl_put_indentation, abort_of]
  cases hgo : (Dump.new [] beg_of_line).go crate_add with
  | ok st => rw [hgo] at h; simp [abort_of] at h
  | error a =>
    rw [hgo] at h
    simp only [abort_of, Option.some.injEq, Prod.mk.injEq] at h
    exact ⟨fun st hst => (by cases hst), a, rfl, h.1⟩

/-! ## Claims about the line emitter -/

/-- C4: `put` omits the last fragment of a text with a line break.  For the text
"a\nb", from any state and for either value of `endline`, `put` writes the
indentation prefix (at a line start), then the fragment "a", then the
terminator if `endline`: the fragment "b" and the line break and prefix that
should precede it are never written. -/
theorem put_drops_last_fragment (self : Dump) (endline : Bool) :
    self.put "a\nb".toList endline =
      { stream := self.stream ++ (if self.beg_of_line then self.indentation.str else [])
          ++ "a".toList ++ (if endline then endl else []),
        indentation := self.indentation,
        beg_of_line := endline } := by
  rw [put_eq]
  simp [put_result, loop_writes]

/-- C5: after `put (text, endline)` the at-line-start flag equals `endline`,
whatever it was before, and the indentation depth is unchanged. -/
theorem put_flag_and_depth (self : Dump) (text : Str) (endline : Bool) :
    (self.put text endline).beg_of_line = endline ∧
    (self.put text endline).indentation.tabs = self.indentation.tabs := by
  rw [put_eq]
  exact ⟨rfl, rfl⟩

/-! ## Claims about the bracket framer -/

/-- C6: for a name without line breaks, `begin (name, d)` increases the depth by
exactly one and leaves the state at line start; what it writes ends with a
line break followed by the terminated line `name`, one space, the open symbol
of `d` (`{` for curly, `[` for square), written at the indentation of the depth
before the call (in particular when the call starts at line start). -/
theorem begin_spec (name : Str) (d : delim) (self : Dump) (hname : '\n' ∉ name) :
    (self.begin name d).indentation.tabs = self.indentation.tabs + 1 ∧
    (self.begin name d).beg_of_line = true ∧
    (self.begin name d).stream =
      self.stream ++ (if self.beg_of_line then self.indentation.str else []) ++ endl
        ++ (self.indentation.str ++ (name ++ [' ', open_symbol d]) ++ endl) ∧
    '\n' ∉ self.indentation.str ++ (name ++ [' ', open_symbol d]) ∧
    delims d.index 0 = [open_symbol d] ∧
    open_symbol .CURLY = '{' ∧ open_symbol .SQUARE = '[' := by
  refine ⟨begin_tabs _ _ _, begin_beg_of_line _ _ _, ?_, ?_, delims_open d, rfl, rfl⟩
  · rw [begin_eq hname]
  · simp only [List.mem_append, not_or]
    refine ⟨indent_str_no_break _, hname, ?_⟩
    have := open_symbol_ne_break d
    simp [this.symm]

/-- C6, at the name `Crate` with curly delimiters, from a fresh state at line
start: the frame opener is the line `Crate {`. -/
theorem begin_spec_witness :
    '\n' ∉ "Crate".toList ∧
    ((Dump.new [] true).begin "Crate".toList .CURLY).stream = "\nCrate \x7b\n".toList ∧
    ((Dump.new [] true).begin "Crate".toList .CURLY).indentation.tabs = 1 :=
  ⟨by decide,
    (begin_spec "Crate".toList .CURLY (Dump.new [] true) (by decide)).2.2.1.trans (by decide),
    (begin_spec "Crate".toList .CURLY (Dump.new [] true) (by decide)).1⟩

/-- C7: for a name without line breaks and a state of depth at least one,
`end (name, d)` completes; it first decreases the depth by exactly one, then
writes a line break, then (after the indentation prefix of the decreased depth
when the state is at line start) the close symbol of `d` (`}` for curly, `]` for
square) followed by " // " and `name`, and terminates that line.  The close
symbol is the partner of the open symbol `begin` writes for the same `d`. -/
theorem end_spec (name : Str) (d : delim) (self : Dump) (hname : '\n' ∉ name)
    (hdepth : 1 ≤ self.indentation.tabs) :
    ∃ st, self.end_ name d = .ok st ∧
      st.indentation.tabs + 1 = self.indentation.tabs ∧
      st.stream =
        self.stream ++ endl ++ (if self.beg_of_line then st.indentation.str else [])
          ++ ([close_symbol d] ++ " // ".toList ++ name) ++ endl ∧
      delims d.index 1 = [close_symbol d] ∧
      delims d.index 0 = [open_symbol d] ∧
      (open_symbol d, close_symbol d) ∈ [('{', '}'), ('[', ']')] ∧
      close_symbol .CURLY = '}' ∧ close_symbol .SQUARE = ']' := by
  refine ⟨self.end_state name d, ?_, ?_, ?_, delims_close d, delims_open d, ?_, rfl, rfl⟩
  · rw [end_eq, if_neg (by omega)]
  · rw [end_state_tabs]; omega
  · rw [end_state_eq hname]
  · cases d <;> simp [open_symbol, close_symbol]

/-- C7, at the name `Crate` with curly delimiters, from depth one at line start:
the closer is the line `} // Crate` at depth zero. -/
theorem end_spec_witness :
    '\n' ∉ "Crate".toList ∧
    1 ≤ (⟨[], ⟨1⟩, true⟩ : Dump).indentation.tabs ∧
    ∃ st, (⟨[], ⟨1⟩, true⟩ : Dump).end_ "Crate".toList .CURLY = .ok st ∧
      st.indentation.tabs + 1 = 1 :=
  ⟨by decide, by decide,
    (end_spec "Crate".toList .CURLY ⟨[], ⟨1⟩, true⟩ (by decide) (by decide)).imp
      (fun _ h => ⟨h.1, h.2.1⟩)⟩

/-! ## Lines of the output -/

theorem lines_append_break {a : Str} (h : '\n' ∉ a) (rest : Str) :
    lines (a ++ '\n' :: rest) = a :: lines rest := by
  induction a with
  | nil => simp [lines]
  | cons x xs ih =>
    have hx : x ≠ '\n' := fun e => h (by simp [e])
    have hxs : '\n' ∉ xs := fun m => h (List.mem_cons_of_mem _ m)
    simp [lines, hx, ih hxs]

theorem lines_nil : lines [] = [[]] := rfl

theorem is_blank_nil : is_blank [] = true := rfl

theorem is_blank_indent_str (i : Indent) : is_blank i.str = true := by
  unfold is_blank Indent.str
  rw [List.all_eq_true]
  intro c hc
  rw [List.eq_of_mem_replicate hc]
  decide

theorem is_blank_eq_false {l : Str} {c : Char} (hc : c ∈ l) (hw : c.isWhitespace = false) :
    is_blank l = false := by
  unfold is_blank
  rw [Bool.eq_false_iff]
  intro h
  rw [List.all_eq_true] at h
  rw [h c hc] at hw
  cases hw

theorem StubKind.name_no_break (kind : StubKind) : '\n' ∉ kind.name := by
  cases kind <;> decide

theorem StubKind.begin_arg_eq (kind : StubKind) :
    kind.begin_arg = kind.name ++ incomplete_marker := by
  cases kind <;> rfl

theorem StubKind.end_arg_eq (kind : StubKind) : kind.end_arg = kind.name := by
  cases kind <;> rfl

theorem lines_frame {pre l1 l2 : Str} (hpre : '\n' ∉ pre) (h1 : '\n' ∉ l1) (h2 : '\n' ∉ l2) :
    lines (pre ++ endl ++ (l1 ++ endl) ++ endl ++ (l2 ++ endl)) = [pre, l1, [], l2, []] := by
  have e : pre ++ endl ++ (l1 ++ endl) ++ endl ++ (l2 ++ endl) =
      pre ++ '\n' :: (l1 ++ '\n' :: ([] ++ '\n' :: (l2 ++ '\n' :: []))) := by
    simp [endl]
  rw [e, lines_append_break hpre, lines_append_break h1,
    lines_append_break (List.not_mem_nil _), lines_append_break h2, lines_nil]

theorem visit_stub_eq (kind : StubKind) (contents : List Node) (self : Dump) :
    self.visit (.stub kind contents) =
      .ok { stream := self.stream
              ++ ((if self.beg_of_line then self.indentation.str else []) ++ endl
                ++ (self.indentation.str ++ (kind.name ++ incomplete_marker ++ [' ', '{']) ++ endl)
                ++ endl
                ++ (self.indentation.str ++ (['}'] ++ " // ".toList ++ kind.name) ++ endl)),
            indentation := self.indentation,
            beg_of_line := true } := by
  have hn := StubKind.name_no_break kind
  have hm : '\n' ∉ kind.name ++ incomplete_marker := by
    simp only [List.mem_append, not_or]
    exact ⟨hn, by decide⟩
  simp only [Dump.visit, StubKind.begin_arg_eq, StubKind.end_arg_eq, delim_default]
  rw [begin_eq hm, end_eq, if_neg (by simp), end_state_eq hn]
  simp [open_symbol, close_symbol]

/-! ## Claims about the rendering rules -/

/-- C8: every node kind without a detailed rendering rule (there are 113) is
rendered as a placeholder frame.  Visiting a node of such a kind `K`, whatever
its contents and whatever the state, is `begin (K + " (INCOMPLETE -- CONTENT NOT
DISPLAYED)")` followed by `end (K)` with the same kind name `K`; it never
fails, it leaves the depth as it was, and of the lines it writes the only ones
that are not blank are the opener and the closer. -/
theorem visit_stub_spec (kind : StubKind) (contents : List Node) (self : Dump) :
    Fintype.card StubKind = 113 ∧
    kind.begin_arg = kind.name ++ incomplete_marker ∧
    kind.end_arg = kind.name ∧
    self.visit (.stub kind contents) =
      (self.begin (kind.name ++ incomplete_marker) .CURLY).end_ kind.name .CURLY ∧
    ∃ st written,
      self.visit (.stub kind contents) = .ok st ∧
      st.indentation = self.indentation ∧
      st.stream = self.stream ++ written ∧
      lines written =
        [if self.beg_of_line then self.indentation.str else [],
          self.indentation.str ++ (kind.name ++ incomplete_marker ++ [' ', '{']),
          [],
          self.indentation.str ++ (['}'] ++ " // ".toList ++ kind.name),
          []] ∧
      non_blank_lines written =
        [self.indentation.str ++ (kind.name ++ incomplete_marker ++ [' ', '{']),
          self.indentation.str ++ (['}'] ++ " // ".toList ++ kind.name)] := by
  have hn := StubKind.name_no_break kind
  have hpre : '\n' ∉ (if self.beg_of_line then self.indentation.str else []) := by
    split
    · exact indent_str_no_break _
    · exact List.not_mem_nil _
  have h1 : '\n' ∉ self.indentation.str ++ (kind.name ++ incomplete_marker ++ [' ', '{']) := by
    simp only [List.mem_append, not_or]
    exact ⟨indent_str_no_break _, ⟨hn, by decide⟩, by decide⟩
  have h2 : '\n' ∉ self.indentation.str ++ (['}'] ++ " // ".toList ++ kind.name) := by
    simp only [List.mem_append, not_or]
    exact ⟨indent_str_no_break _, ⟨by decide, by decide⟩, hn⟩
  have hl := lines_frame hpre h1 h2
  refine ⟨by rfl, StubKind.begin_arg_eq kind, StubKind.end_arg_eq kind, ?_,
    _, _, visit_stub_eq kind contents self, rfl, rfl, hl, ?_⟩
  · simp only [Dump.visit, StubKind.begin_arg_eq, StubKind.end_arg_eq, delim_default]
  · have b1 : is_blank (if self.beg_of_line then self.indentation.str else []) = true := by
      split
      · exact is_blank_indent_str _
      · rfl
    have b2 : is_blank
        (self.indentation.str ++ (kind.name ++ incomplete_marker ++ [' ', '{'])) = false :=
      is_blank_eq_false (c := '{') (by simp) (by decide)
    have b3 : is_blank
        (self.indentation.str ++ (['}'] ++ " // ".toList ++ kind.name)) = false :=
      is_blank_eq_false (c := '}') (by simp) (by decide)
    unfold non_blank_lines
    rw [hl]
    simp only [List.filter, b1, b2, b3, is_blank_nil, Bool.not_true, Bool.not_false]

theorem operator_str_no_break {expr_type : ArithmeticOrLogicalOperator} {op : Str}
    (h : operator_str expr_type = some op) : '\n' ∉ op := by
  cases expr_type <;> simp only [operator_str, Option.some.injEq] at h <;>
    first
      | (subst h; decide)
      | cases h

theorem visit_ArithmeticOrLogicalExpr_eq {expr_type : ArithmeticOrLogicalOperator} {op : Str}
    (h : operator_str expr_type = some op) (lhs rhs : Node) (self : Dump) :
    self.visit (.ArithmeticOrLogicalExpr expr_type lhs rhs) =
      (self.visit lhs >>= fun self1 => ((self1.put [] true).put op true).visit rhs) := by
  simp only [Dump.visit, h]

theorem visit_ArithmeticOrLogicalExpr_out_of_domain (raw : Nat) (lhs rhs : Node) (self : Dump) :
    self.visit (.ArithmeticOrLogicalExpr (.out_of_domain raw) lhs rhs) =
      .error ⟨.gcc_unreachable, self⟩ := by
  simp only [Dump.visit, operator_str]

/-- C9 (amended): visiting a binary arithmetic/logical expression maps its
operator code to the canonical symbol by the table `ADD +`, `SUBTRACT -`,
`MULTIPLY *`, `DIVIDE /`, `MODULUS %`, `BITWISE_AND &`, `BITWISE_OR |`,
`BITWISE_XOR ^`, `LEFT_SHIFT <<`, `RIGHT_SHIFT >>`.  A code outside these ten
makes the visit abort with `gcc_unreachable` in the very state it was entered
in, whatever the operands are: nothing has been written and no operand has
been visited.  The visit fails if and only if the code is outside the ten or
the dump of one of its operands fails: the left operand's from the entry
state, or the right operand's from the state after the operator line. -/
theorem visit_ArithmeticOrLogicalExpr_operator (expr_type : ArithmeticOrLogicalOperator)
    (lhs rhs : Node) (self : Dump) :
    (operator_str .ADD = some ['+'] ∧ operator_str .SUBTRACT = some ['-'] ∧
      operator_str .MULTIPLY = some ['*'] ∧ operator_str .DIVIDE = some ['/'] ∧
      operator_str .MODULUS = some ['%'] ∧ operator_str .BITWISE_AND = some ['&'] ∧
      operator_str .BITWISE_OR = some ['|'] ∧ operator_str .BITWISE_XOR = some ['^'] ∧
      operator_str .LEFT_SHIFT = some ['<', '<'] ∧
      operator_str .RIGHT_SHIFT = some ['>', '>']) ∧
    (∀ op, operator_str expr_type = some op →
      self.visit (.ArithmeticOrLogicalExpr expr_type lhs rhs) =
        (self.visit lhs >>= fun self1 => ((self1.put [] true).put op true).visit rhs)) ∧
    (∀ raw, expr_type = .out_of_domain raw →
      self.visit (.ArithmeticOrLogicalExpr expr_type lhs rhs) =
        .error ⟨.gcc_unreachable, self⟩) ∧
    ((∃ a, self.visit (.ArithmeticOrLogicalExpr expr_type lhs rhs) = .error a) ↔
      ((∃ raw, expr_type = .out_of_domain raw) ∨
        (∃ a, self.visit lhs = .error a) ∨
        (∃ op self1 a, operator_str expr_type = some op ∧ self.visit lhs = .ok self1 ∧
          ((self1.put [] true).put op true).visit rhs = .error a))) := by
  refine ⟨⟨rfl, rfl, rfl, rfl, rfl, rfl, rfl, rfl, rfl, rfl⟩,
    fun op h => visit_ArithmeticOrLogicalExpr_eq h lhs rhs self, ?_, ?_⟩
  · intro raw h
    subst h
    exact visit_ArithmeticOrLogicalExpr_out_of_domain raw lhs rhs self
  · cases hop : operator_str expr_type with
    | none =>
      cases expr_type <;> simp only [operator_str] at hop <;> try cases hop
      rename_i raw
      exact ⟨fun _ => Or.inl ⟨raw, rfl⟩,
        fun _ => ⟨_, visit_ArithmeticOrLogicalExpr_out_of_domain raw lhs rhs self⟩⟩
    | some op =>
      rw [visit_ArithmeticOrLogicalExpr_eq hop]
      cases h1 : self.visit lhs with
      | error a1 =>
        exact ⟨fun _ => Or.inr (Or.inl ⟨a1, rfl⟩), fun _ => ⟨a1, rfl⟩⟩
      | ok s1 =>
        rw [ok_bind]
        constructor
        · rintro ⟨a, ha⟩
          exact Or.inr (Or.inr ⟨op, s1, a, rfl, rfl, ha⟩)
        · rintro (⟨raw, hraw⟩ | ⟨a, ha⟩ | ⟨op2, s2, a, hop2, hs2, ha⟩)
          · subst hraw
            simp only [operator_str] at hop
            cases hop
          · cases ha
          · cases hop2
            cases hs2
            exact ⟨a, ha⟩

/-- C9 (amended), at `1 + 2` and at an expression with the code 99: with the
in-domain code `ADD` over two literals the visit does not fail, and with the
out-of-domain code it aborts in the entry state. -/
theorem visit_ArithmeticOrLogicalExpr_operator_witness :
    operator_str .ADD = some ['+'] ∧
    (¬ ∃ a, (Dump.new [] true).visit
        (.ArithmeticOrLogicalExpr .ADD literal_one literal_two) = .error a) ∧
    (Dump.new [] true).visit
        (.ArithmeticOrLogicalExpr (.out_of_domain 99) literal_one literal_two) =
      .error ⟨.gcc_unreachable, Dump.new [] true⟩ := by
  refine ⟨rfl, ?_,
    (visit_ArithmeticOrLogicalExpr_operator (.out_of_domain 99) literal_one literal_two
      (Dump.new [] true)).2.2.1 99 rfl⟩
  intro h
  rcases (visit_ArithmeticOrLogicalExpr_operator .ADD literal_one literal_two
      (Dump.new [] true)).2.2.2.1 h with ⟨raw, hraw⟩ | ⟨a, ha⟩ | ⟨op, s1, a, _, _, ha⟩
  · cases hraw
  · cases ha
  · cases ha

/-- C9 as stated fails for `(1 ?? 2) + 2`, where `??` stands for the
out-of-domain code 99: the code of the outer expression, `ADD`, is one of the
ten, and yet its visit fails, because the dump of its left operand does. -/
theorem visit_ArithmeticOrLogicalExpr_operator_counterexample :
    (Dump.new [] true).visit
        (.ArithmeticOrLogicalExpr .ADD
          (.ArithmeticOrLogicalExpr (.out_of_domain 99) literal_one literal_two) literal_two) =
      .error ⟨.gcc_unreachable, Dump.new [] true⟩ ∧
    operator_str .ADD = some ['+'] ∧
    ¬ ((∃ a, (Dump.new [] true).visit
          (.ArithmeticOrLogicalExpr .ADD
            (.ArithmeticOrLogicalExpr (.out_of_domain 99) literal_one literal_two)
            literal_two) = .error a) ↔
        ∃ raw, ArithmeticOrLogicalOperator.ADD = .out_of_domain raw) := by
  have h : (Dump.new [] true).visit
        (.ArithmeticOrLogicalExpr .ADD
          (.ArithmeticOrLogicalExpr (.out_of_domain 99) literal_one literal_two) literal_two) =
      .error ⟨.gcc_unreachable, Dump.new [] true⟩ := by
    rw [@visit_ArithmeticOrLogicalExpr_eq .ADD ['+'] rfl,
      visit_ArithmeticOrLogicalExpr_out_of_domain]
    rfl
  refine ⟨h, rfl, ?_⟩
  intro hiff
  obtain ⟨raw, hraw⟩ := hiff.1 ⟨_, h⟩
  cases hraw

/-- C10 (amended): for a binary arithmetic/logical expression with an in-domain
operator whose left operand's dump completes, the output is, in order: the dump
of the left operand; a line terminator, preceded by the indentation prefix
when the left operand's dump ended at a line start; one terminated line
holding only the indentation prefix and the operator symbol; and then the dump
of the right operand, started at a line start.  No frame is opened around it:
the right operand is dumped at the depth the left operand's dump ended with. -/
theorem visit_ArithmeticOrLogicalExpr_output (expr_type : ArithmeticOrLogicalOperator)
    (op : Str) (lhs rhs : Node) (self self1 : Dump)
    (hop : operator_str expr_type = some op) (hlhs : self.visit lhs = .ok self1) :
    self.visit (.ArithmeticOrLogicalExpr expr_type lhs rhs) =
      ({ stream := self1.stream
            ++ (if self1.beg_of_line then self1.indentation.str else []) ++ endl
            ++ (self1.indentation.str ++ op ++ endl),
          indentation := self1.indentation,
          beg_of_line := true } : Dump).visit rhs := by
  rw [visit_ArithmeticOrLogicalExpr_eq hop, hlhs, ok_bind,
    put_of_no_break (List.not_mem_nil _), put_of_no_break (operator_str_no_break hop)]
  simp

/-- C10 (amended), at `1 ^ 2` from a fresh state at line start: the symbol `^`
stands on its own line between the dumps of the two literals. -/
theorem visit_ArithmeticOrLogicalExpr_output_witness :
    operator_str .BITWISE_XOR = some ['^'] ∧
    (Dump.new [] true).visit literal_one = .ok ⟨"1 [1]".toList, ⟨0⟩, false⟩ ∧
    (Dump.new [] true).visit (.ArithmeticOrLogicalExpr .BITWISE_XOR literal_one literal_two) =
      (⟨"1 [1]\n^\n".toList, ⟨0⟩, true⟩ : Dump).visit literal_two :=
  have h1 : (Dump.new [] true).visit literal_one = .ok ⟨"1 [1]".toList, ⟨0⟩, false⟩ := by
    simp only [literal_one, Dump.visit]
    rw [put_of_no_break (by decide)]
    rfl
  ⟨rfl, h1,
    visit_ArithmeticOrLogicalExpr_output .BITWISE_XOR ['^'] literal_one literal_two
      (Dump.new [] true) ⟨"1 [1]".toList, ⟨0⟩, false⟩ rfl h1⟩

/-- C10 as stated fails for `f () + 2` dumped at depth one from a line start:
the dump of the call (a placeholder frame) ends at a line start, so what
follows it is the indentation prefix and only then the line terminator, not
the line terminator directly. -/
theorem visit_ArithmeticOrLogicalExpr_output_counterexample :
    (⟨[], ⟨1⟩, true⟩ : Dump).visit call_expr = .ok call_expr_dumped ∧
    (⟨[], ⟨1⟩, true⟩ : Dump).visit (.ArithmeticOrLogicalExpr .ADD call_expr literal_two) =
      .ok ⟨call_expr_dumped.stream ++ "\t\n\t+\n\t2 [2]".toList, ⟨1⟩, false⟩ ∧
    ¬ ∃ right,
      call_expr_dumped.stream ++ "\t\n\t+\n\t2 [2]".toList =
        call_expr_dumped.stream ++ endl
          ++ (call_expr_dumped.indentation.str ++ ['+'] ++ endl) ++ right := by
  have h1 : (⟨[], ⟨1⟩, true⟩ : Dump).visit call_expr = .ok call_expr_dumped := by
    rw [call_expr, visit_stub_eq]
    rfl
  refine ⟨h1, ?_, ?_⟩
  · rw [@visit_ArithmeticOrLogicalExpr_eq .ADD ['+'] rfl, h1, ok_bind]
    simp only [literal_two, Dump.visit]
    rw [put_of_no_break (List.not_mem_nil _), put_of_no_break (by decide),
      put_of_no_break (by decide)]
    rfl
  · rintro ⟨right, h⟩
    simp [endl] at h

/-! ## Evaluation of the framer on concrete states -/

theorem begin_eq_result (self : Dump) (name : Str) (d : delim) :
    self.begin name d = begin_result self name d := by
  simp only [Dump.begin, begin_result, put_eq]

theorem end_eq_result (self : Dump) (name : Str) (d : delim) :
    self.end_ name d = end_result self name d := by
  simp only [Dump.end_, end_result, put_eq]

theorem put_line {text : Str} (h : '\n' ∉ text) (self : Dump) (endline : Bool) :
    self.put text endline =
      { stream := self.stream ++ self.line_prefix ++ text ++ (if endline then endl else []),
        indentation := self.indentation,
        beg_of_line := endline } :=
  put_of_no_break h self endline

/-! ## Claims about blocks, lifetimes, types and literals -/

/-- C11: the block frame is not closed with the symbol it is opened with.
Visiting the empty block `{}` from any state writes the opener `BlockExpr [`
(square) and the closer `} // BlockExpr` (curly): `visit (BlockExpr &)` calls
`begin ("BlockExpr", SQUARE)` and then `end ("BlockExpr")` with the default
delimiter. -/
theorem visit_BlockExpr_closer_mismatch (self : Dump) :
    self.visit (.BlockExpr [] [] none) =
      .ok { stream := self.stream
              ++ (self.line_prefix ++ endl
                ++ (self.indentation.str ++ "BlockExpr [".toList ++ endl)
                ++ endl
                ++ (self.indentation.str ++ "\x7d // BlockExpr".toList ++ endl)),
            indentation := self.indentation,
            beg_of_line := true } := by
  simp only [Dump.visit, Dump.do_inner_attrs, has_statements, delim_default]
  simp only [List.isEmpty_nil, Bool.not_true, Bool.false_eq_true, if_false, if_true, ok_bind]
  rw [begin_eq (by decide), end_eq, if_neg (by simp), end_state_eq (by decide)]
  simp [open_symbol, close_symbol, Dump.line_prefix]

/-- C14: a lifetime flagged as an error is rendered as the fixed error sentinel,
whatever its lifetime type and name: the visit writes the sentinel text (after
the indentation prefix at a line start), which is none of the named, static
and wildcard forms.  An unflagged lifetime is rendered by `put` of "'" + name
for `NAMED`, of "'static" for `STATIC` and of "'_" for `WILDCARD`; for a name
without line breaks that is the text itself. -/
theorem visit_Lifetime_spec (lifetime_type : LifetimeType) (name : Str) (self : Dump) :
    self.visit (.Lifetime true lifetime_type name) =
      .ok ⟨self.stream ++ self.line_prefix ++ error_lifetime_text, self.indentation, false⟩ ∧
    error_lifetime_text ≠ "'".toList ++ name ∧
    error_lifetime_text ≠ "'static".toList ∧
    error_lifetime_text ≠ "'_".toList ∧
    self.visit (.Lifetime false .NAMED name) = .ok (self.put ("'".toList ++ name) false) ∧
    ('\n' ∉ name →
      self.visit (.Lifetime false .NAMED name) =
        .ok ⟨self.stream ++ self.line_prefix ++ ("'".toList ++ name), self.indentation, false⟩) ∧
    self.visit (.Lifetime false .STATIC name) =
      .ok ⟨self.stream ++ self.line_prefix ++ "'static".toList, self.indentation, false⟩ ∧
    self.visit (.Lifetime false .WILDCARD name) =
      .ok ⟨self.stream ++ self.line_prefix ++ "'_".toList, self.indentation, false⟩ := by
  refine ⟨?_, ?_, by decide, by decide, ?_, ?_, ?_, ?_⟩
  · simp only [Dump.visit, if_true]
    rw [put_line (by decide)]
    simp [error_lifetime_text]
  · intro h
    have := congrArg List.head? h
    simp [error_lifetime_text] at this
  · simp only [Dump.visit, Bool.false_eq_true, if_false]
  · intro hname
    simp only [Dump.visit, Bool.false_eq_true, if_false]
    rw [put_line (by simpa using hname)]
    simp
  · simp only [Dump.visit, Bool.false_eq_true, if_false]
    rw [put_line (by decide)]
    simp
  · simp only [Dump.visit, Bool.false_eq_true, if_false]
    rw [put_line (by decide)]
    simp

/-- C14, at the unflagged named lifetime `a`, written in mid-line: the output
is the two characters of its named form. -/
theorem visit_Lifetime_spec_witness :
    '\n' ∉ "a".toList ∧
    (Dump.new [] false).visit (.Lifetime false .NAMED "a".toList) =
      .ok ⟨"'a".toList, ⟨0⟩, false⟩ :=
  ⟨by decide,
    ((visit_Lifetime_spec .NAMED "a".toList (Dump.new [] false)).2.2.2.2.2.1
      (by decide)).trans rfl⟩

/-- C15 (amended): an unflagged lifetime whose type is none of `NAMED`, `STATIC`
and `WILDCARD` is not a fatal failure: the visit completes, writing the marker
text "ERROR-MARK-STRING: lifetime type failure" (after the indentation prefix
at a line start), and the dump continues. -/
theorem visit_Lifetime_out_of_domain (raw : Nat) (name : Str) (self : Dump) :
    self.visit (.Lifetime false (.out_of_domain raw) name) =
      .ok ⟨self.stream ++ self.line_prefix ++ lifetime_type_failure_text,
        self.indentation, false⟩ := by
  simp only [Dump.visit, Bool.false_eq_true, if_false]
  rw [put_line (by decide)]
  simp [lifetime_type_failure_text]

/-- C15 as stated fails for the unflagged lifetime of type code 7 named `a`:
visited in a fresh state it does not abort, it writes the marker text and
returns. -/
theorem visit_Lifetime_out_of_domain_counterexample :
    (Dump.new [] false).visit (.Lifetime false (.out_of_domain 7) "a".toList) =
      .ok ⟨"ERROR-MARK-STRING: lifetime type failure".toList, ⟨0⟩, false⟩ ∧
    ¬ ∃ a, (Dump.new [] false).visit (.Lifetime false (.out_of_domain 7) "a".toList)
      = .error a := by
  have h : (Dump.new [] false).visit (.Lifetime false (.out_of_domain 7) "a".toList) =
      .ok ⟨"ERROR-MARK-STRING: lifetime type failure".toList, ⟨0⟩, false⟩ := by
    simp only [Dump.visit, Bool.false_eq_true, if_false, put_eq]
    rfl
  refine ⟨h, ?_⟩
  rintro ⟨a, ha⟩
  rw [h] at ha
  cases ha

/-- C17: the identity mapping of a literal is lost when the literal's text has a
line break.  Visiting the literal with text "a\nb" and mapping "[m]" writes (after
the indentation prefix at a line start) the single character `a`: the rest of
the text and the mapping string are never written. -/
theorem visit_LiteralExpr_loses_mappings (self : Dump) :
    self.visit (.LiteralExpr "a\nb".toList "[m]".toList) =
      .ok ⟨self.stream ++ self.line_prefix ++ "a".toList, self.indentation, false⟩ := by
  simp only [Dump.visit, put_eq]
  simp [put_result, loop_writes, Dump.line_prefix]

theorem visit_stmts_eq_foldlM (statements : List Node) (self : Dump) :
    self.visit_stmts statements = statements.foldlM stmt_frame self := by
  induction statements generalizing self with
  | nil => simp only [Dump.visit_stmts, List.foldlM_nil]; rfl
  | cons stmt stmts ih =>
    simp only [Dump.visit_stmts, List.foldlM_cons, delim_default, stmt_frame]
    cases h : (self.begin "Stmt".toList .CURLY).visit stmt with
    | error a => rfl
    | ok s1 =>
      simp only [ok_bind]
      cases h2 : s1.end_ "Stmt".toList .CURLY with
      | error a => rfl
      | ok s2 =>
        simp only [ok_bind]
        exact ih s2

theorem do_inner_attrs_eq (inner_attrs : List Attribute) (self : Dump) :
    self.do_inner_attrs inner_attrs = inner_attrs_frame self inner_attrs := by
  cases inner_attrs <;> simp [Dump.do_inner_attrs, inner_attrs_frame]

theorem final_expression_line_eq (expr : Option Str) (s : Dump) :
    (∀ t, expr = some t → '\n' ∉ t) →
    (match expr with
      | some e => s.put ("final expression: ".toList ++ e) true
      | none => s) = final_expression_line s expr := by
  intro hexpr
  cases expr with
  | none => rfl
  | some t =>
    have ht : '\n' ∉ "final expression: ".toList ++ t := by
      simp only [List.mem_append, not_or]
      exact ⟨by decide, hexpr t rfl⟩
    simp only [put_line ht, final_expression_line, if_true]

/-- For a block expression whose trailing expression, if any, has a textual
form without line breaks, the visit is the opener, then `block_contents`, then
the closer: a square `inner_attrs` sub-frame if and only if the block has
inner attributes; one curly `Stmt` frame per statement, in statement order,
each wrapping that statement's recursive dump; and, if and only if the block
has a trailing expression of text `t`, one terminated line reading
"final expression: " + t. -/
theorem visit_BlockExpr_contents (inner_attrs : List Attribute) (statements : List Node)
    (expr : Option Str) (self : Dump) (hexpr : ∀ t, expr = some t → '\n' ∉ t) :
    self.visit (.BlockExpr inner_attrs statements expr) =
      (block_contents (self.begin "BlockExpr".toList .SQUARE) inner_attrs statements expr >>=
        fun s => s.end_ "BlockExpr".toList .CURLY) := by
  have hfinal := fun s => final_expression_line_eq expr s hexpr
  simp only [Dump.visit, block_contents, do_inner_attrs_eq, delim_default]
  cases h1 : inner_attrs_frame (self.begin "BlockExpr".toList .SQUARE) inner_attrs with
  | error a => rfl
  | ok s1 =>
    simp only [ok_bind]
    cases statements with
    | nil =>
      simp only [has_statements, List.isEmpty_nil, Bool.not_true, Bool.false_eq_true,
        if_false, ok_bind, hfinal]
      rfl
    | cons x xs =>
      simp only [has_statements, List.isEmpty_cons, Bool.not_false, if_true,
        visit_stmts_eq_foldlM]
      cases h2 : List.foldlM stmt_frame s1 (x :: xs) with
      | error a => rfl
      | ok s2 =>
        simp only [ok_bind, hfinal]

/-- The block `{ 1 + 2 }` dumped at depth one from a line start: no statement
frames, and the summary line `final expression: 1 + 2`. -/
theorem visit_BlockExpr_contents_example :
    (⟨[], ⟨1⟩, true⟩ : Dump).visit (.BlockExpr [] [] (some "1 + 2".toList)) =
      .ok ⟨"\t\n\tBlockExpr [\n\t\tfinal expression: 1 + 2\n\n\t\x7d // BlockExpr\n".toList,
        ⟨1⟩, true⟩ := by
  have h : ∀ t, some "1 + 2".toList = some t → '\n' ∉ t := by
    intro t ht
    cases ht
    decide
  refine (visit_BlockExpr_contents [] [] (some "1 + 2".toList) ⟨[], ⟨1⟩, true⟩ h).trans ?_
  simp only [block_contents, inner_attrs_frame, begin_eq_result, end_eq_result]
  rfl

/-- C12: the summary line of a block's trailing expression does not always read
"final expression: " + t.  For a block whose trailing expression has the
two-line text "a\nb", dumped at depth one from a line start, the only line
written between the opener and the closer reads `final expression: a`: the rest
of the text is never written (the character `b` occurs nowhere in the output),
because `put` drops what follows the last line break of its text. -/
theorem visit_BlockExpr_final_expression_truncated :
    (⟨[], ⟨1⟩, true⟩ : Dump).visit (.BlockExpr [] [] (some "a\nb".toList)) =
      .ok ⟨"\t\n\tBlockExpr [\n\t\tfinal expression: a\n\n\t\x7d // BlockExpr\n".toList,
        ⟨1⟩, true⟩ ∧
    lines "\t\n\tBlockExpr [\n\t\tfinal expression: a\n\n\t\x7d // BlockExpr\n".toList =
      ["\t".toList, "\tBlockExpr [".toList, "\t\tfinal expression: a".toList, [],
        "\t\x7d // BlockExpr".toList, []] ∧
    'b' ∉ "\t\n\tBlockExpr [\n\t\tfinal expression: a\n\n\t\x7d // BlockExpr\n".toList := by
  refine ⟨?_, by decide, by decide⟩
  simp only [Dump.visit, Dump.do_inner_attrs, put_eq, begin_eq_result, end_eq_result]
  rfl

/-- C13: the parameter block of a function is not rendered as two frames.  For
`fn f (x : i32) {}` dumped at depth one from a line start, the `node_mappings`
frame is closed by a closer naming `params`, a second closer naming
`node_mappings` follows it, and the frame `Function` opened at depth one is
closed at depth zero. -/
theorem visit_Function_one_param_output :
    (⟨[], ⟨1⟩, true⟩ : Dump).visit fn_one_param =
      .ok ⟨("\t\n\tFunction \x7b\n\t\tfunc_name: f,\n\t\treturn_type: void,\n"
          ++ "\t\t\n\t\tparams \x7b\n\t\t\tx : i32,\n\x7d // params\n"
          ++ "\t\t\n\t\tnode_mappings \x7b\n\t\t\tx:[x],\n\n\t\t\x7d // params\n"
          ++ "\n\t\x7d // node_mappings\n"
          ++ "\t\n\tBlockExpr [\n\n\t\x7d // BlockExpr\n"
          ++ "\tnode_mappings: [f]\n\n\x7d // Function\n").toList,
        ⟨0⟩, true⟩ := by
  simp only [fn_one_param, Dump.visit, Dump.do_inner_attrs, put_eq, begin_eq_result,
    end_eq_result]
  rfl

/-- C16 (amended): for every array type with element-type text `e` (without line
breaks) and size expression `s`, the output of visiting it is "[" + e + ";"
(no space after the semicolon), then the dump of `s`, then "]", with no frame
opened and no line terminated by the rule; for every slice type with
element-type text `e` the output is "&[" + e + "]".  (Each `put` writes the
indentation prefix first when it starts at a line start.) -/
theorem visit_ArrayType_SliceType_output (element_type : Str) (size_expr : Node)
    (self self1 : Dump) (he : '\n' ∉ element_type)
    (hsize : (⟨self.stream ++ self.line_prefix ++ ("[".toList ++ element_type ++ ";".toList),
        self.indentation, false⟩ : Dump).visit size_expr = .ok self1) :
    self.visit (.ArrayType element_type size_expr) =
      .ok ⟨self1.stream ++ self1.line_prefix ++ "]".toList, self1.indentation, false⟩ ∧
    self.visit (.SliceType element_type) =
      .ok ⟨self.stream ++ self.line_prefix ++ ("&[".toList ++ element_type ++ "]".toList),
        self.indentation, false⟩ := by
  have h1 : '\n' ∉ "[".toList ++ element_type ++ ";".toList := by
    simp only [List.mem_append, not_or]
    exact ⟨⟨by decide, he⟩, by decide⟩
  have h2 : '\n' ∉ "&[".toList ++ element_type ++ "]".toList := by
    simp only [List.mem_append, not_or]
    exact ⟨⟨by decide, he⟩, by decide⟩
  constructor
  · simp only [Dump.visit, put_line h1, Bool.false_eq_true, if_false, List.append_nil]
    rw [hsize, ok_bind, put_line (by decide)]
    simp
  · simp only [Dump.visit, put_line h2, Bool.false_eq_true, if_false, List.append_nil]

/-- C16 (amended), at the array type with element text `i32` and size literal
`3`, written in mid-line into an empty stream: the output is `[i32;3 [3]]`. -/
theorem visit_ArrayType_SliceType_output_witness :
    '\n' ∉ "i32".toList ∧
    (⟨"[i32;".toList, ⟨0⟩, false⟩ : Dump).visit (.LiteralExpr "3".toList "[3]".toList) =
      .ok ⟨"[i32;3 [3]".toList, ⟨0⟩, false⟩ ∧
    (Dump.new [] false).visit array_type_i32_3 = .ok ⟨"[i32;3 [3]]".toList, ⟨0⟩, false⟩ := by
  have hs : (⟨"[i32;".toList, ⟨0⟩, false⟩ : Dump).visit (.LiteralExpr "3".toList "[3]".toList) =
      .ok ⟨"[i32;3 [3]".toList, ⟨0⟩, false⟩ := by
    simp only [Dump.visit, put_eq]
    rfl
  exact ⟨by decide, hs,
    ((visit_ArrayType_SliceType_output "i32".toList (.LiteralExpr "3".toList "[3]".toList)
      (Dump.new [] false) ⟨"[i32;3 [3]".toList, ⟨0⟩, false⟩ (by decide) hs).1).trans rfl⟩

/-- C16 as stated fails for the array type with element text `i32` and size
literal `3`: the output is `[i32;3 [3]]`, which does not start with "[i32; ",
so it is not "[" + "i32" + "; " + (a dump of the size) + "]". -/
theorem visit_ArrayType_SliceType_output_counterexample :
    (Dump.new [] false).visit array_type_i32_3 = .ok ⟨"[i32;3 [3]]".toList, ⟨0⟩, false⟩ ∧
    ¬ ∃ size_dump : Str,
      "[i32;3 [3]]".toList = "[".toList ++ "i32".toList ++ "; ".toList ++ size_dump ++ "]".toList := by
  constructor
  · simp only [array_type_i32_3, Dump.visit, put_eq]
    rfl
  · rintro ⟨size_dump, h⟩
    simp at h

theorem go_empty_crate (beg_of_line : Bool) :
    (Dump.new [] beg_of_line).go ⟨[], [], "[crate]".toList⟩ =
      .ok ⟨("\nCrate \x7b\n\t\n\titems [\n\n\t] // items\n"
          ++ "\tnode_mapping: [crate]\n\n\x7d // Crate\n").toList, ⟨0⟩, true⟩ := by
  simp only [Dump.go, Dump.visit_items, put_eq, begin_eq_result, end_eq_result]
  cases beg_of_line <;> rfl

set_option maxRecDepth 20000

/-- C18: `Dump::go` does not write a complete `Crate` frame for every crate.  For
the crate whose only item is `fn f (x : i32) {}`, dumped from a fresh state, the
run writes the opener, the items frame and the line `node_mapping: [crate]` and
then aborts on the depth assertion of the final `end ("Crate")`: the closer of
the `Crate` frame is never written. -/
theorem go_one_param_no_Crate_closer (beg_of_line : Bool) :
    (Dump.new [] beg_of_line).go crate_one_param =
      .error ⟨.rust_assert,
        ⟨("\nCrate \x7b\n\t\n\titems [\n"
          ++ "\t\t\n\t\tFunction \x7b\n\t\t\tfunc_name: f,\n\t\t\treturn_type: void,\n"
          ++ "\t\t\t\n\t\t\tparams \x7b\n\t\t\t\tx : i32,\n\x7d // params\n"
          ++ "\t\t\t\n\t\t\tnode_mappings \x7b\n\t\t\t\tx:[x],\n\n\t\t\t\x7d // params\n"
          ++ "\n\t\t\x7d // node_mappings\n"
          ++ "\t\t\n\t\tBlockExpr [\n\n\t\t\x7d // BlockExpr\n"
          ++ "\t\tnode_mappings: [f]\n\n\t\x7d // Function\n"
          ++ "\n] // items\nnode_mapping: [crate]\n").toList,
        ⟨0⟩, true⟩⟩ := by
  simp only [crate_one_param, fn_one_param, Dump.go, Dump.visit_items, Dump.visit,
    Dump.do_inner_attrs, put_eq, begin_eq_result, end_eq_result]
  cases beg_of_line <;> rfl

/-! ## The output does not depend on what the sink already holds -/

theorem put_shift (pre : Str) (self : Dump) (text : Str) (endline : Bool) :
    (self.shift pre).put text endline = (self.put text endline).shift pre := by
  rw [put_eq, put_eq]
  simp [put_result, Dump.shift, List.append_assoc]

theorem begin_shift (pre : Str) (self : Dump) (name : Str) (d : delim) :
    (self.shift pre).begin name d = (self.begin name d).shift pre := by
  simp only [Dump.begin, put_shift]
  rfl

theorem end_shift (pre : Str) (self : Dump) (name : Str) (d : delim) :
    (self.shift pre).end_ name d = shift_run pre (self.end_ name d) := by
  have h : (self.shift pre).indentation = self.indentation := rfl
  simp only [Dump.end_, h]
  cases self.indentation.decrement with
  | none => rfl
  | some ind =>
    show Except.ok _ = Except.ok _
    have e : (({ self.shift pre with indentation := ind } : Dump).write endl) =
        (({ self with indentation := ind } : Dump).write endl).shift pre := by
      simp [Dump.shift, Dump.write, List.append_assoc]
    rw [e, put_shift]

theorem foldl_put_shift {α : Type} (pre : Str) (f : α → Str) (endline : Bool) (l : List α)
    (self : Dump) :
    l.foldl (fun acc item => acc.put (f item) endline) (self.shift pre) =
      (l.foldl (fun acc item => acc.put (f item) endline) self).shift pre := by
  induction l generalizing self with
  | nil => rfl
  | cons x xs ih => simp only [List.foldl_cons, put_shift, ih]

theorem visit_Attribute_shift (pre : Str) (self : Dump) (attr : Attribute) :
    (self.shift pre).visit_Attribute attr = (self.visit_Attribute attr).shift pre := by
  unfold Dump.visit_Attribute
  split <;> simp only [put_shift]

theorem foldl_visit_Attribute_shift (pre : Str) (l : List Attribute) (self : Dump) :
    l.foldl (fun acc attr => acc.visit_Attribute attr) (self.shift pre) =
      (l.foldl (fun acc attr => acc.visit_Attribute attr) self).shift pre := by
  induction l generalizing self with
  | nil => rfl
  | cons x xs ih => simp only [List.foldl_cons, visit_Attribute_shift, ih]

theorem do_inner_attrs_shift (pre : Str) (self : Dump) (attrs : List Attribute) :
    (self.shift pre).do_inner_attrs attrs = shift_run pre (self.do_inner_attrs attrs) := by
  unfold Dump.do_inner_attrs
  split
  · rfl
  · simp only [begin_shift, foldl_visit_Attribute_shift, end_shift]

theorem shift_run_bind (pre : Str) (r : Except Abort Dump)
    (f g : Dump → Except Abort Dump) (h : ∀ s, g (s.shift pre) = shift_run pre (f s)) :
    (shift_run pre r >>= g) = shift_run pre (r >>= f) := by
  cases r with
  | error a => rfl
  | ok s => exact h s

theorem shift_run_ok (pre : Str) (s : Dump) : shift_run pre (.ok s) = .ok (s.shift pre) := rfl


mutual
theorem visit_shift (pre : Str) : ∀ (node : Node) (self : Dump),
    (self.shift pre).visit node = shift_run pre (self.visit node)
  | .Lifetime is_error lifetime_type name, self => by
    simp only [Dump.visit]
    split
    · simp only [put_shift, shift_run_ok]
    · cases lifetime_type <;> simp only [put_shift, shift_run_ok]
  | .stub kind contents, self => by
    simp only [Dump.visit, begin_shift, end_shift]
  | .LiteralExpr literal mappings, self => by
    simp only [Dump.visit, put_shift, shift_run_ok]
  | .ArithmeticOrLogicalExpr expr_type lhs rhs, self => by
    simp only [Dump.visit]
    cases operator_str expr_type with
    | none => rfl
    | some op =>
      simp only [visit_shift pre lhs]
      refine shift_run_bind pre _ _ _ (fun s => ?_)
      simp only [put_shift, visit_shift pre rhs]
  | .ArrayExpr inner_attrs as_string, self => by
    simp only [Dump.visit, begin_shift, do_inner_attrs_shift]
    refine shift_run_bind pre _ _ _ (fun s => ?_)
    simp only [put_shift, end_shift]
  | .BlockExpr inner_attrs statements expr, self => by
    simp only [Dump.visit, begin_shift, do_inner_attrs_shift]
    refine shift_run_bind pre _ _ _ (fun s => ?_)
    cases hs : has_statements statements
    · simp only [Bool.false_eq_true, if_false, ok_bind]
      cases expr <;> simp only [put_shift, end_shift]
    · simp only [if_true, visit_stmts_shift pre statements]
      refine shift_run_bind pre _ _ _ (fun s2 => ?_)
      cases expr <;> simp only [put_shift, end_shift]
  | .IfExpr if_condition if_block, self => by
    simp only [Dump.visit, begin_shift, visit_shift pre if_condition]
    refine shift_run_bind pre _ _ _ (fun s => ?_)
    simp only [end_shift]
    refine shift_run_bind pre _ _ _ (fun s => ?_)
    simp only [begin_shift, visit_shift pre if_block]
    refine shift_run_bind pre _ _ _ (fun s => ?_)
    simp only [end_shift]
    refine shift_run_bind pre _ _ _ (fun s => ?_)
    simp only [end_shift]
  | .Function function_name return_type function_params definition impl_mappings, self => by
    cases return_type <;> cases hp : has_function_params function_params <;>
      simp only [Dump.visit, hp, begin_shift, put_shift, foldl_put_shift, end_shift,
        Bool.false_eq_true, if_false, if_true, ok_bind, bind_assoc,
        visit_shift pre definition] <;>
      repeat (first
        | rfl
        | (refine shift_run_bind pre _ _ _ (fun s => ?_)
           try simp only [begin_shift, put_shift, foldl_put_shift, end_shift, ok_bind,
             visit_shift pre definition]))
  | .IdentifierPattern identifier, self => by
    simp only [Dump.visit, put_shift, shift_run_ok]
  | .LetStmt pattern type (some expr), self => by
    cases type <;>
      simp only [Dump.visit, begin_shift, put_shift, end_shift, ok_bind, bind_assoc,
        visit_shift pre expr] <;>
      repeat (first
        | rfl
        | (refine shift_run_bind pre _ _ _ (fun s => ?_)
           try simp only [begin_shift, put_shift, end_shift, ok_bind]))
  | .LetStmt pattern type none, self => by
    cases type <;>
      simp only [Dump.visit, begin_shift, put_shift, end_shift, ok_bind]
  | .ExprStmt expr, self => by
    simp only [Dump.visit, visit_shift pre expr]
  | .ArrayType element_type size_expr, self => by
    simp only [Dump.visit, put_shift, visit_shift pre size_expr]
    refine shift_run_bind pre _ _ _ (fun s => ?_)
    simp only [put_shift, shift_run_ok]
  | .SliceType element_type, self => by
    simp only [Dump.visit, put_shift, shift_run_ok]
theorem visit_stmts_shift (pre : Str) : ∀ (statements : List Node) (self : Dump),
    (self.shift pre).visit_stmts statements = shift_run pre (self.visit_stmts statements)
  | [], self => by
    simp only [Dump.visit_stmts, shift_run_ok]
  | stmt :: stmts, self => by
    simp only [Dump.visit_stmts, begin_shift, visit_shift pre stmt]
    refine shift_run_bind pre _ _ _ (fun s => ?_)
    simp only [end_shift]
    refine shift_run_bind pre _ _ _ (fun s => ?_)
    simp only [visit_stmts_shift pre stmts]
end

theorem visit_items_shift (pre : Str) (items : List Node) (self : Dump) :
    (self.shift pre).visit_items items = shift_run pre (self.visit_items items) := by
  induction items generalizing self with
  | nil => rfl
  | cons item items ih =>
    simp only [Dump.visit_items, visit_shift]
    exact shift_run_bind pre _ _ _ (fun s => ih s)

theorem go_shift (pre : Str) (crate : Crate) (self : Dump) :
    (self.shift pre).go crate = shift_run pre (self.go crate) := by
  cases h : crate.inner_attrs.isEmpty <;>
    simp only [Dump.go, h, begin_shift, put_shift, foldl_put_shift, visit_items_shift,
      Bool.not_true, Bool.not_false, Bool.false_eq_true, if_false, if_true] <;>
    repeat (first
      | rfl
      | (refine shift_run_bind pre _ _ _ (fun s => ?_)
         try simp only [end_shift, put_shift]))

theorem final_stream_shift_run (pre : Str) (r : Except Abort Dump) :
    final_stream (shift_run pre r) = pre ++ final_stream r := by
  cases r <;> rfl

theorem shift_stream_nil (self : Dump) :
    ({ self with stream := [] } : Dump).shift self.stream = self := by
  simp [Dump.shift]

theorem begin_new_flag (sink : Str) (beg_of_line : Bool) (d : delim) :
    (Dump.new sink beg_of_line).begin "Crate".toList d =
      (Dump.new sink true).begin "Crate".toList d := by
  rw [begin_eq (by decide), begin_eq (by decide)]
  cases beg_of_line <;> simp [Dump.new, Indent.new, Indent.str]

/-! ## Claims about the output as a whole -/

/-- C19: the output is append-only.  After `put`, after `begin`, after `end`,
after visiting any node and after `Dump::go`, whether the run completed or
aborted, the content of the sink is its content before with some text
appended: nothing already written is rewritten or removed. -/
theorem output_append_only (node : Node) (crate : Crate) (self : Dump) (text name : Str)
    (endline : Bool) (d : delim) :
    self.stream <+: (self.put text endline).stream ∧
    self.stream <+: (self.begin name d).stream ∧
    self.stream <+: final_stream (self.end_ name d) ∧
    self.stream <+: final_stream (self.visit node) ∧
    self.stream <+: final_stream (self.go crate) := by
  have hput : ∀ (t : Str) (e : Bool), self.stream <+: (self.put t e).stream := by
    intro t e
    have := put_shift self.stream { self with stream := [] } t e
    rw [shift_stream_nil] at this
    rw [this]
    exact List.prefix_append _ _
  refine ⟨hput text endline, ?_, ?_, ?_, ?_⟩
  · have := begin_shift self.stream { self with stream := [] } name d
    rw [shift_stream_nil] at this
    rw [this]
    exact List.prefix_append _ _
  · have := end_shift self.stream { self with stream := [] } name d
    rw [shift_stream_nil] at this
    rw [this, final_stream_shift_run]
    exact List.prefix_append _ _
  · have := visit_shift self.stream node { self with stream := [] }
    rw [shift_stream_nil] at this
    rw [this, final_stream_shift_run]
    exact List.prefix_append _ _
  · have := go_shift self.stream crate { self with stream := [] }
    rw [shift_stream_nil] at this
    rw [this, final_stream_shift_run]
    exact List.prefix_append _ _

/-- C20: the output of `Dump::go` is a function of the tree alone.  Two runs on
the same crate, each from its own freshly constructed state, give the same
result whatever the initial value of the at-line-start flag; and over sinks
that already hold text, each run appends to its sink exactly what the run over
an empty sink writes (and aborts exactly when that run aborts). -/
theorem go_deterministic (crate : Crate) (sink1 sink2 : Str) (flag1 flag2 : Bool) :
    (Dump.new [] flag1).go crate = (Dump.new [] flag2).go crate ∧
    (Dump.new sink1 flag1).go crate = shift_run sink1 ((Dump.new [] true).go crate) ∧
    (Dump.new sink2 flag2).go crate = shift_run sink2 ((Dump.new [] true).go crate) := by
  have hflag : ∀ (sink : Str) (b : Bool),
      (Dump.new sink b).go crate = (Dump.new sink true).go crate := by
    intro sink b
    simp only [Dump.go, begin_new_flag sink b]
  have hsink : ∀ (sink : Str) (b : Bool),
      (Dump.new sink b).go crate = shift_run sink ((Dump.new [] true).go crate) := by
    intro sink b
    rw [hflag sink b, ← go_shift]
    simp [Dump.new, Dump.shift]
  exact ⟨(hflag [] flag1).trans (hflag [] flag2).symm, hsink sink1 flag1, hsink sink2 flag2⟩

/-! ## Remaining claims about the line emitter and the operator table -/

/-- C21: the closer written by `end` does not always start with the indentation
prefix.  For `let x;` dumped at depth one from a line start, the pattern `x` is
written unterminated at depth two, and `end ("LetStmt")` then writes its line
break directly to the stream without marking the line start: the closer line
reads `} // LetStmt` with no prefix, where the prefix of depth one is a tab. -/
theorem visit_LetStmt_closer_not_indented :
    (⟨[], ⟨1⟩, true⟩ : Dump).visit let_x =
      .ok ⟨"\t\n\tLetStmt \x7b\n\t\tx\n\x7d // LetStmt\n".toList, ⟨1⟩, true⟩ ∧
    lines "\t\n\tLetStmt \x7b\n\t\tx\n\x7d // LetStmt\n".toList =
      ["\t".toList, "\tLetStmt \x7b".toList, "\t\tx".toList, "\x7d // LetStmt".toList, []] ∧
    (⟨1⟩ : Indent).str = "\t".toList := by
  refine ⟨?_, by decide, rfl⟩
  simp only [let_x, Dump.visit, put_eq, begin_eq_result, end_eq_result]
  rfl

/-- C22: for every text without a line break, `put (text, endline)` appends
exactly the indentation prefix of the current depth if and only if the state
was at line start, then the text unchanged, then one line terminator if and
only if `endline`; depth is unchanged and the flag becomes `endline`.  For the
empty text at line start with `endline` true this is the prefix followed by a
line terminator. -/
theorem put_no_break_spec (text : Str) (endline : Bool) (self : Dump) (htext : '\n' ∉ text) :
    self.put text endline =
      { stream := self.stream ++ (if self.beg_of_line then self.indentation.str else [])
          ++ text ++ (if endline then endl else []),
        indentation := self.indentation,
        beg_of_line := endline } ∧
    (self.beg_of_line = true →
      (self.put [] true).stream = self.stream ++ self.indentation.str ++ endl) := by
  refine ⟨put_of_no_break htext self endline, ?_⟩
  intro hbol
  rw [put_of_no_break (List.not_mem_nil _), hbol]
  simp

/-- C22, at the text `abc` written terminated at depth one from a line start. -/
theorem put_no_break_spec_witness :
    '\n' ∉ "abc".toList ∧
    (⟨[], ⟨1⟩, true⟩ : Dump).put "abc".toList true = ⟨"\tabc\n".toList, ⟨1⟩, true⟩ ∧
    ((⟨[], ⟨1⟩, true⟩ : Dump).beg_of_line = true →
      ((⟨[], ⟨1⟩, true⟩ : Dump).put [] true).stream = "\t\n".toList) :=
  ⟨by decide,
    (put_no_break_spec "abc".toList true ⟨[], ⟨1⟩, true⟩ (by decide)).1.trans rfl,
    fun h => ((put_no_break_spec "abc".toList true ⟨[], ⟨1⟩, true⟩ (by decide)).2 h).trans rfl⟩

/-- C23: the operator-to-symbol mapping of binary arithmetic/logical expressions
is injective on the domain: two operator codes rendered with the same symbol
are the same code, so the operator can be recovered from its symbol line. -/
theorem operator_str_injective (a b : ArithmeticOrLogicalOperator) (symbol : Str)
    (ha : operator_str a = some symbol) (hb : operator_str b = some symbol) : a = b := by
  cases a <;> cases b <;> simp only [operator_str, Option.some.injEq] at ha hb <;>
    first
      | rfl
      | (subst ha; exact absurd hb (by decide))
      | cases ha

/-- C23, at the symbol `^`: a code rendered `^`, as `BITWISE_XOR` is, is
`BITWISE_XOR`. -/
theorem operator_str_injective_witness :
    operator_str .BITWISE_XOR = some "^".toList ∧
    ∀ b, operator_str b = some "^".toList → ArithmeticOrLogicalOperator.BITWISE_XOR = b :=
  ⟨rfl, fun b hb => operator_str_injective .BITWISE_XOR b "^".toList rfl hb⟩

/-! ## Termination of the line-splitting loop -/

theorem find_bounds {text : Str} {prev pos : Nat} (h : find text '\n' prev = some pos) :
    prev ≤ pos ∧ pos < text.length ∧ text[pos]? = some '\n' := by
  obtain ⟨frag, tail, h1, _, h3⟩ := find_from_eq_some h
  have hlen : (text.drop prev).length = frag.length + (tail.length + 1) := by
    rw [h1]; simp
  rw [List.length_drop] at hlen
  refine ⟨by omega, by omega, ?_⟩
  have hget : (text.drop prev)[frag.length]? = some '\n' := by
    rw [h1, List.getElem?_append_right (Nat.le_refl _), Nat.sub_self]
    simp
  rw [List.getElem?_drop] at hget
  rw [h3]
  exact hget

theorem put_loop_of_find_some {text : Str} {prev pos : Nat}
    (h : find text '\n' prev = some pos) (self : Dump) (first : Bool) :
    Dump.put_loop text self prev first =
      Dump.put_loop text
        ((if !first then (self.write endl).write self.indentation.str else self).write
          (substr text prev (pos - prev))) (pos + 1) false := by
  rw [Dump.put_loop]
  split
  · rename_i h2
    rw [h] at h2
    cases h2
  · rename_i pos2 h2
    rw [h] at h2
    cases h2
    rfl

theorem put_loop_counted_of_find_none {text : Str} {prev : Nat}
    (h : find text '\n' prev = none) (self : Dump) (first : Bool) :
    Dump.put_loop_counted text self prev first = ((self, first), 0) := by
  rw [Dump.put_loop_counted]
  split
  · rfl
  · rename_i pos hpos
    rw [h] at hpos
    cases hpos

theorem put_loop_counted_of_find_some {text : Str} {prev pos : Nat}
    (h : find text '\n' prev = some pos) (self : Dump) (first : Bool) :
    Dump.put_loop_counted text self prev first =
      ((Dump.put_loop_counted text
          ((if !first then (self.write endl).write self.indentation.str else self).write
            (substr text prev (pos - prev))) (pos + 1) false).1,
        (Dump.put_loop_counted text
          ((if !first then (self.write endl).write self.indentation.str else self).write
            (substr text prev (pos - prev))) (pos + 1) false).2 + 1) := by
  rw [Dump.put_loop_counted]
  split
  · rename_i h2
    rw [h] at h2
    cases h2
  · rename_i pos2 h2
    rw [h] at h2
    cases h2
    rfl

theorem put_loop_counted_fst (text : Str) (self : Dump) (prev : Nat) (first : Bool) :
    (Dump.put_loop_counted text self prev first).1 = Dump.put_loop text self prev first := by
  induction self, prev, first using Dump.put_loop.induct text with
  | case1 self prev first h =>
    rw [put_loop_of_find_none h, put_loop_counted_of_find_none h]
  | case2 self prev first pos h self1 self2 ih =>
    rw [put_loop_of_find_some h, put_loop_counted_of_find_some h]
    exact ih

theorem put_loop_counted_snd (text : Str) (self : Dump) (prev : Nat) (first : Bool) :
    (Dump.put_loop_counted text self prev first).2 = (text.drop prev).count '\n' := by
  induction self, prev, first using Dump.put_loop.induct text with
  | case1 self prev first h =>
    rw [put_loop_counted_of_find_none h]
    exact (List.count_eq_zero.2 (mem_drop_of_find_none h)).symm
  | case2 self prev first pos h self1 self2 ih =>
    obtain ⟨frag, hfrag, hdrop, _⟩ := find_eq_some h
    rw [put_loop_counted_of_find_some h]
    show (Dump.put_loop_counted text self2 (pos + 1) false).2 + 1 = _
    rw [ih, hdrop, List.count_append, List.count_cons_self, List.count_eq_zero.2 hfrag]
    omega

/-- C24: the line-splitting loop of `put` terminates for every text.  Each
iteration finds a line break at a position `pos` at or after the search start
and within the text, and moves the search start to `pos + 1`, strictly past it,
so the distance to the end of the text strictly decreases; the loop with an
iteration counter computes what the loop computes and runs its body exactly as
many times as the text has line breaks.  `Dump.put` and, by recursion on the
tree, `Dump.visit` and `Dump.go` are total functions: a dump of any tree
returns (a final state or an abort). -/
theorem put_loop_terminates (text : Str) (self : Dump) (endline : Bool) (node : Node)
    (crate : Crate) :
    (∀ prev pos, find text '\n' prev = some pos →
      prev < pos + 1 ∧ pos + 1 ≤ text.length ∧ text[pos]? = some '\n' ∧
      text.length - (pos + 1) < text.length - prev) ∧
    (∀ prev first,
      (Dump.put_loop_counted text self prev first).1 = Dump.put_loop text self prev first ∧
      (Dump.put_loop_counted text self prev first).2 = (text.drop prev).count '\n') ∧
    (Dump.put_loop_counted text self 0 true).2 = text.count '\n' ∧
    (∃ st, self.put text endline = st) ∧
    (∃ r, self.visit node = r) ∧
    (∃ r, self.go crate = r) := by
  refine ⟨?_, fun prev first => ⟨put_loop_counted_fst text self prev first,
    put_loop_counted_snd text self prev first⟩, ?_, ⟨_, rfl⟩, ⟨_, rfl⟩, ⟨_, rfl⟩⟩
  · intro prev pos h
    obtain ⟨h1, h2, h3⟩ := find_bounds h
    exact ⟨by omega, by omega, h3, by omega⟩
  · rw [put_loop_counted_snd, List.drop_zero]

/-- C24, at the text "a\nb\nc": the search from position 0 finds the line break
at position 1, and the loop runs twice, once per line break. -/
theorem put_loop_terminates_witness :
    find "a\nb\nc".toList '\n' 0 = some 1 ∧
    (0 < 1 + 1 ∧ 1 + 1 ≤ "a\nb\nc".toList.length ∧ "a\nb\nc".toList[1]? = some '\n' ∧
      "a\nb\nc".toList.length - (1 + 1) < "a\nb\nc".toList.length - 0) ∧
    (Dump.put_loop_counted "a\nb\nc".toList (Dump.new [] true) 0 true).2 = 2 :=
  ⟨rfl,
    (put_loop_terminates "a\nb\nc".toList (Dump.new [] true) true literal_one
      crate_one_param).1 0 1 rfl,
    (put_loop_terminates "a\nb\nc".toList (Dump.new [] true) true literal_one
      crate_one_param).2.2.1.trans (by decide)⟩

end Rust.HIR
